import Mathlib

/-!
# A shallow embedding of the rdb-rs streaming RDB decoder (src/lib.rs)

Bytes are modelled as `Nat` (each in `[0, 256)`), byte streams as `List Nat`.
Every Rust function of the decoder is translated to an executable Lean
function of the same name.  The Rust code aborts on bad input via
`assert!`/`unwrap`/explicit aborts; such an abort is modelled by the
distinguished outcome `Res.crash` (the source never returns an error
value: `parse` returns unit).  Formatter callbacks are modelled by an
event trace: each reader returns the list of emitted events together
with the unconsumed remainder of its input.  Return values of the Rust
readers (the `DataType` trees) are dead for every observable property
and are dropped, except for `read_ziplist_entry` whose `DataType`
result is consumed by `read_ziplist_entries`.
-/

namespace Rdb

/-- Outcome of a fallible computation: `ok` or an abort
(`assert!` failure / `unwrap` of an error / explicit abort in the source). -/
inductive Res (α : Type) where
  | ok : α → Res α
  | crash : Res α
deriving DecidableEq, Repr

/-- The sorted-set score as passed to `sorted_set_element`.  The source
stores an `f64`; floating point is kept abstract by recording which of
the three sentinel values was decoded, or the raw ASCII decimal text
handed to the float parser. -/
inductive Score where
  | nan : Score
  | inf : Score
  | neginf : Score
  | text : List Nat → Score
deriving DecidableEq, Repr

/-- Formatter events, one constructor per callback of the
`RdbParseFormatter` trait that the decoder invokes.  The unused
`encoding hint` parameter (always `None` in the source) is omitted. -/
inductive Event where
  | start_rdb : Event
  | end_rdb : Event
  | checksum : List Nat → Event
  | start_database : Nat → Event
  | end_database : Nat → Event
  | resizedb : Nat → Nat → Event
  | aux_field : List Nat → List Nat → Event
  | set : List Nat → List Nat → Option Nat → Event
  | start_hash : List Nat → Nat → Option Nat → Event
  | end_hash : List Nat → Event
  | hash_element : List Nat → List Nat → List Nat → Event
  | start_set : List Nat → Nat → Option Nat → Event
  | end_set : List Nat → Event
  | set_element : List Nat → List Nat → Event
  | start_list : List Nat → Nat → Option Nat → Event
  | end_list : List Nat → Event
  | list_element : List Nat → List Nat → Event
  | start_sorted_set : List Nat → Nat → Option Nat → Event
  | end_sorted_set : List Nat → Event
  | sorted_set_element : List Nat → Score → List Nat → Event
deriving DecidableEq, Repr

/-- The ziplist entry values produced by `read_ziplist_entry`
(only the `String` and `Number` cases of the source enum are reachable). -/
inductive DataType where
  | str : List Nat → DataType
  | num : Int → DataType
deriving DecidableEq, Repr

/-- The `RdbFilter` trait: three predicates. -/
structure Filter where
  matches_db : Nat → Bool
  matches_type : Nat → Bool
  matches_key : List Nat → Bool

/-- `AllFilter`: accepts everything (the trait's defaults). -/
def AllFilter : Filter :=
  ⟨fun _ => true, fun _ => true, fun _ => true⟩

/-! ## Byte reader -/

/-- `input.read_byte()`: one byte, `unwrap` aborts at end of stream. -/
def read_byte : List Nat → Res (Nat × List Nat)
  | [] => Res.crash
  | b :: rest => Res.ok (b, rest)

/-- `input.read_exact(n)`: exactly `n` bytes, abort on short read. -/
def read_exact : Nat → List Nat → Res (List Nat × List Nat)
  | 0, input => Res.ok ([], input)
  | _ + 1, [] => Res.crash
  | n + 1, b :: rest =>
    match read_exact n rest with
    | Res.ok (bs, r) => Res.ok (b :: bs, r)
    | Res.crash => Res.crash

/-- Little-endian value of a byte list (first byte least significant). -/
def leValue : List Nat → Nat
  | [] => 0
  | b :: rest => b + 256 * leValue rest

/-- Big-endian value of a byte list (first byte most significant). -/
def beValue : List Nat → Nat
  | [] => 0
  | b :: rest => b * 256 ^ rest.length + beValue rest

/-- Two's-complement reading of a `bits`-wide unsigned value as a signed
integer (`as i8` / `as i16` / ... casts of the source). -/
def toSigned (bits : Nat) (v : Nat) : Int :=
  if v < 2 ^ (bits - 1) then (v : Int) else (v : Int) - 2 ^ bits

/-- `read_le_u16`. -/
def read_le_u16 (input : List Nat) : Res (Nat × List Nat) :=
  match read_exact 2 input with
  | Res.ok (bs, r) => Res.ok (leValue bs, r)
  | Res.crash => Res.crash

/-- `read_le_u32`. -/
def read_le_u32 (input : List Nat) : Res (Nat × List Nat) :=
  match read_exact 4 input with
  | Res.ok (bs, r) => Res.ok (leValue bs, r)
  | Res.crash => Res.crash

/-- `read_le_u64`. -/
def read_le_u64 (input : List Nat) : Res (Nat × List Nat) :=
  match read_exact 8 input with
  | Res.ok (bs, r) => Res.ok (leValue bs, r)
  | Res.crash => Res.crash

/-- `read_be_u32`. -/
def read_be_u32 (input : List Nat) : Res (Nat × List Nat) :=
  match read_exact 4 input with
  | Res.ok (bs, r) => Res.ok (beValue bs, r)
  | Res.crash => Res.crash

/-- `read_i8`. -/
def read_i8 (input : List Nat) : Res (Int × List Nat) :=
  match read_byte input with
  | Res.ok (b, r) => Res.ok (toSigned 8 b, r)
  | Res.crash => Res.crash

/-- `read_le_i16`. -/
def read_le_i16 (input : List Nat) : Res (Int × List Nat) :=
  match read_le_u16 input with
  | Res.ok (v, r) => Res.ok (toSigned 16 v, r)
  | Res.crash => Res.crash

/-- `read_le_i32`. -/
def read_le_i32 (input : List Nat) : Res (Int × List Nat) :=
  match read_le_u32 input with
  | Res.ok (v, r) => Res.ok (toSigned 32 v, r)
  | Res.crash => Res.crash

/-- `read_le_i64`. -/
def read_le_i64 (input : List Nat) : Res (Int × List Nat) :=
  match read_le_u64 input with
  | Res.ok (v, r) => Res.ok (toSigned 64 v, r)
  | Res.crash => Res.crash

/-! ## Constants (inline modules of src/lib.rs) -/

namespace version

/-- `version::SUPPORTED_MINIMUM` (src/lib.rs line 100). -/
def SUPPORTED_MINIMUM : Nat := 1

/-- `version::SUPPORTED_MAXIMUM` (src/lib.rs line 101). -/
def SUPPORTED_MAXIMUM : Nat := 7

end version

namespace op_codes

def AUX : Nat := 250
def RESIZEDB : Nat := 251
def EXPIRETIME_MS : Nat := 252
def EXPIRETIME : Nat := 253
def SELECTDB : Nat := 254
def EOF : Nat := 255

end op_codes

namespace types

def STRING : Nat := 0
def LIST : Nat := 1
def SET : Nat := 2
def ZSET : Nat := 3
def HASH : Nat := 4
def HASH_ZIPMAP : Nat := 9
def LIST_ZIPLIST : Nat := 10
def SET_INTSET : Nat := 11
def ZSET_ZIPLIST : Nat := 12
def HASH_ZIPLIST : Nat := 13
def LIST_QUICKLIST : Nat := 14

end types

namespace encoding

def INT8 : Nat := 0
def INT16 : Nat := 1
def INT32 : Nat := 2
def LZF : Nat := 3

end encoding

/-! ## Decimal text of integers

`helper::int_to_vec` and `to_string().as_bytes()`: the ASCII decimal
representation of a signed integer as a byte list. -/

/-- Digit-accumulator loop; the fuel is always ample (`n + 1` ≥ number of digits). -/
def natDecimalGo : Nat → Nat → List Nat → List Nat
  | 0, _, acc => acc
  | fuel + 1, n, acc =>
    if n = 0 then acc else natDecimalGo fuel (n / 10) ((n % 10 + 48) :: acc)

/-- ASCII decimal digits of a natural number. -/
def natDecimal (n : Nat) : List Nat :=
  if n = 0 then [48] else natDecimalGo (n + 1) n []

/-- ASCII decimal text of a signed integer (`int_to_vec` / `to_string`),
with a leading minus sign (byte 45) for negatives. -/
def int_to_vec (v : Int) : List Nat :=
  if v < 0 then 45 :: natDecimal v.natAbs else natDecimal v.natAbs

/-! ## LZF decompression

Models the external `lzf` crate's `decompress(data, real_length)`
(not part of this repository): alternating literal runs
(control byte < 32) and back-references into the output produced so
far; a reference outside the output or an output larger than the
declared length is an error (the source `unwrap`s it, hence `crash`). -/

/-- Copy `k` bytes starting at output offset `ref` onto the end of the
output (byte by byte, so overlapping forward copies behave as in LZF). -/
def lzfCopy : Nat → Nat → List Nat → Res (List Nat)
  | 0, _, out => Res.ok out
  | k + 1, ref, out =>
    match out.get? ref with
    | some b => lzfCopy k (ref + 1) (out ++ [b])
    | none => Res.crash

/-- Main LZF loop; each step consumes at least one input byte, so fuel
`input.length` suffices. -/
def lzfGo : Nat → List Nat → List Nat → Res (List Nat)
  | _, [], out => Res.ok out
  | 0, _ :: _, _ => Res.crash
  | fuel + 1, ctrl :: rest, out =>
    if ctrl < 32 then
      match read_exact (ctrl + 1) rest with
      | Res.ok (lit, rest2) => lzfGo fuel rest2 (out ++ lit)
      | Res.crash => Res.crash
    else
      match (if ctrl >>> 5 = 7 then
               match read_byte rest with
               | Res.ok (ext, r) => Res.ok (7 + ext, r)
               | Res.crash => Res.crash
             else Res.ok (ctrl >>> 5, rest) : Res (Nat × List Nat)) with
      | Res.crash => Res.crash
      | Res.ok (len, rest2) =>
        match read_byte rest2 with
        | Res.crash => Res.crash
        | Res.ok (lo, rest3) =>
          let off := ((ctrl &&& 0x1F) <<< 8) + lo + 1
          if off ≤ out.length then
            match lzfCopy (len + 2) (out.length - off) out with
            | Res.ok out2 => lzfGo fuel rest3 out2
            | Res.crash => Res.crash
          else Res.crash

/-- `lzf::decompress(data, real_length)`. -/
def lzf_decompress (data : List Nat) (real_length : Nat) : Res (List Nat) :=
  match lzfGo data.length data [] with
  | Res.ok out => if out.length ≤ real_length then Res.ok out else Res.crash
  | Res.crash => Res.crash

/-! ## Length prefix, magic, version, blob (src/lib.rs lines 249-330) -/

/-- `read_length_with_encoding` (src/lib.rs lines 249-273): one byte,
top two bits select the case; the fourth case (top bits `10`) always
reads 4 more bytes big-endian. -/
def read_length_with_encoding (input : List Nat) : Res ((Nat × Bool) × List Nat) :=
  match read_byte input with
  | Res.crash => Res.crash
  | Res.ok (enc_type, i1) =>
    match (enc_type &&& 0xC0) >>> 6 with
    | 3 => Res.ok ((enc_type &&& 0x3F, true), i1)
    | 0 => Res.ok ((enc_type &&& 0x3F, false), i1)
    | 1 =>
      match read_byte i1 with
      | Res.crash => Res.crash
      | Res.ok (next_byte, i2) =>
        Res.ok ((((enc_type &&& 0x3F) <<< 8) ||| next_byte, false), i2)
    | _ =>
      match read_be_u32 i1 with
      | Res.crash => Res.crash
      | Res.ok (length, i2) => Res.ok ((length, false), i2)

/-- `read_length` (src/lib.rs lines 275-278). -/
def read_length (input : List Nat) : Res (Nat × List Nat) :=
  match read_length_with_encoding input with
  | Res.crash => Res.crash
  | Res.ok ((length, _), rest) => Res.ok (length, rest)

/-- `verify_magic` (src/lib.rs lines 280-289): five bytes compared with
ASCII `REDIS` = 82 69 68 73 83. -/
def verify_magic (input : List Nat) : Res (Bool × List Nat) :=
  match read_exact 5 input with
  | Res.crash => Res.crash
  | Res.ok (magic, rest) =>
    Res.ok ((magic.getD 0 0 == 82 && magic.getD 1 0 == 69 && magic.getD 2 0 == 68 &&
             magic.getD 3 0 == 73 && magic.getD 4 0 == 83), rest)

/-- `verify_version` (src/lib.rs lines 291-301): four bytes; each is
taken minus 48 (`u8` arithmetic wraps, modelled by `(b + 208) % 256`),
combined as a decimal number and compared against the supported range. -/
def verify_version (input : List Nat) : Res (Bool × List Nat) :=
  match read_exact 4 input with
  | Res.crash => Res.crash
  | Res.ok (vb, rest) =>
    let v := (vb.getD 0 0 + 208) % 256 * 1000 + (vb.getD 1 0 + 208) % 256 * 100 +
             (vb.getD 2 0 + 208) % 256 * 10 + (vb.getD 3 0 + 208) % 256
    Res.ok (decide (version.SUPPORTED_MINIMUM ≤ v ∧ v ≤ version.SUPPORTED_MAXIMUM), rest)

/-- `read_blob` (src/lib.rs lines 303-322): a length prefix, then either
raw bytes or a packed integer rendered as decimal text or an
LZF-compressed run; an unknown encoded sub-code aborts. -/
def read_blob (input : List Nat) : Res (List Nat × List Nat) :=
  match read_length_with_encoding input with
  | Res.crash => Res.crash
  | Res.ok ((length, is_encoded), i1) =>
    if is_encoded then
      match length with
      | 0 =>
        match read_i8 i1 with
        | Res.crash => Res.crash
        | Res.ok (v, i2) => Res.ok (int_to_vec v, i2)
      | 1 =>
        match read_le_i16 i1 with
        | Res.crash => Res.crash
        | Res.ok (v, i2) => Res.ok (int_to_vec v, i2)
      | 2 =>
        match read_le_i32 i1 with
        | Res.crash => Res.crash
        | Res.ok (v, i2) => Res.ok (int_to_vec v, i2)
      | 3 =>
        match read_length i1 with
        | Res.crash => Res.crash
        | Res.ok (compressed_length, i2) =>
          match read_length i2 with
          | Res.crash => Res.crash
          | Res.ok (real_length, i3) =>
            match read_exact compressed_length i3 with
            | Res.crash => Res.crash
            | Res.ok (data, i4) =>
              match lzf_decompress data real_length with
              | Res.crash => Res.crash
              | Res.ok out => Res.ok (out, i4)
      | _ => Res.crash
    else
      match read_exact length i1 with
      | Res.crash => Res.crash
      | Res.ok (bs, i2) => Res.ok (bs, i2)

/-- `read_ziplist_metadata` (src/lib.rs lines 324-330): `zlbytes`,
`zltail` (u32 LE) and `zllen` (u16 LE). -/
def read_ziplist_metadata (input : List Nat) : Res ((Nat × Nat × Nat) × List Nat) :=
  match read_le_u32 input with
  | Res.crash => Res.crash
  | Res.ok (zlbytes, i1) =>
    match read_le_u32 i1 with
    | Res.crash => Res.crash
    | Res.ok (zltail, i2) =>
      match read_le_u16 i2 with
      | Res.crash => Res.crash
      | Res.ok (zllen, i3) => Res.ok ((zlbytes, zltail, zllen), i3)

/-! ## Ziplist sub-parser (src/lib.rs lines 486-589) -/

/-- `read_ziplist_entry` (src/lib.rs lines 486-541): previous-entry
length (skipping four bytes when it is 254), then the flag byte.  Top
bits `00`/`01`/`10` give a string length; `11` selects an inline
integer by the top nibble.  The `u8`-to-`i64` casts in the 3-byte
(`0xF0`) and 1-byte (`0xFE`) cases are unsigned, so those two branches
are plain `Nat` computations cast to `Int`. -/
def read_ziplist_entry (input : List Nat) : Res (DataType × List Nat) :=
  match read_byte input with
  | Res.crash => Res.crash
  | Res.ok (p, i0) =>
    match (if p = 254 then
             match read_exact 4 i0 with
             | Res.crash => Res.crash
             | Res.ok (_, r) => Res.ok r
           else Res.ok i0 : Res (List Nat)) with
    | Res.crash => Res.crash
    | Res.ok i1 =>
      match read_byte i1 with
      | Res.crash => Res.crash
      | Res.ok (flag, i2) =>
        match (flag &&& 0xC0) >>> 6 with
        | 0 =>
          match read_exact (flag &&& 0x3F) i2 with
          | Res.crash => Res.crash
          | Res.ok (rawval, i3) => Res.ok (DataType.str rawval, i3)
        | 1 =>
          match read_byte i2 with
          | Res.crash => Res.crash
          | Res.ok (next_byte, i3) =>
            match read_exact (((flag &&& 0x3F) <<< 8) ||| next_byte) i3 with
            | Res.crash => Res.crash
            | Res.ok (rawval, i4) => Res.ok (DataType.str rawval, i4)
        | 2 =>
          match read_be_u32 i2 with
          | Res.crash => Res.crash
          | Res.ok (length, i3) =>
            match read_exact length i3 with
            | Res.crash => Res.crash
            | Res.ok (rawval, i4) => Res.ok (DataType.str rawval, i4)
        | _ =>
          match (flag &&& 0xF0) >>> 4 with
          | 0xC =>
            match read_le_i16 i2 with
            | Res.crash => Res.crash
            | Res.ok (v, i3) => Res.ok (DataType.num v, i3)
          | 0xD =>
            match read_le_i32 i2 with
            | Res.crash => Res.crash
            | Res.ok (v, i3) => Res.ok (DataType.num v, i3)
          | 0xE =>
            match read_le_i64 i2 with
            | Res.crash => Res.crash
            | Res.ok (v, i3) => Res.ok (DataType.num v, i3)
          | 0xF =>
            match flag &&& 0xF with
            | 0 =>
              match read_exact 3 i2 with
              | Res.crash => Res.crash
              | Res.ok (bytes, i3) =>
                Res.ok (DataType.num
                  (((bytes.getD 0 0 <<< 16) ^^^ (bytes.getD 1 0 <<< 8) ^^^
                    bytes.getD 2 0 : Nat) : Int), i3)
            | 0xE =>
              match read_byte i2 with
              | Res.crash => Res.crash
              | Res.ok (b, i3) => Res.ok (DataType.num (b : Int), i3)
            | _ => Res.ok (DataType.num (((flag &&& 0xF : Nat) : Int) - 1), i2)
          | _ => Res.crash

/-- The event a ziplist entry is forwarded as (`read_ziplist_entries`
match on the entry): strings verbatim, numbers as decimal text. -/
def ziplistEntryEvent (key : List Nat) : DataType → Event
  | DataType.str val => Event.list_element key val
  | DataType.num val => Event.list_element key (int_to_vec val)

/-- `read_ziplist_entries` (src/lib.rs lines 543-560): `zllen` entries,
each forwarded via `list_element`. -/
def read_ziplist_entries (key : List Nat) : Nat → List Nat → Res (List Event × List Nat)
  | 0, input => Res.ok ([], input)
  | n + 1, input =>
    match read_ziplist_entry input with
    | Res.crash => Res.crash
    | Res.ok (entry, i1) =>
      match read_ziplist_entries key n i1 with
      | Res.crash => Res.crash
      | Res.ok (evs, rest) => Res.ok (ziplistEntryEvent key entry :: evs, rest)

/-- `read_list_ziplist` (src/lib.rs lines 562-576): one blob, its
metadata, `start_list(key, zllen, expiry)`, the entries, the asserted
`0xFF` terminator, `end_list(key)`. -/
def read_list_ziplist (key : List Nat) (expiry : Option Nat) (input : List Nat) :
    Res (List Event × List Nat) :=
  match read_blob input with
  | Res.crash => Res.crash
  | Res.ok (ziplist, rest) =>
    match read_ziplist_metadata ziplist with
    | Res.crash => Res.crash
    | Res.ok ((_zlbytes, _zltail, zllen), z1) =>
      match read_ziplist_entries key zllen z1 with
      | Res.crash => Res.crash
      | Res.ok (evs, z2) =>
        match read_byte z2 with
        | Res.crash => Res.crash
        | Res.ok (term, _) =>
          if term = 0xFF then
            Res.ok (Event.start_list key zllen expiry :: evs ++ [Event.end_list key], rest)
          else Res.crash

/-- `read_quicklist_ziplist` (src/lib.rs lines 578-589): like
`read_list_ziplist` but with no `start_list`/`end_list` of its own. -/
def read_quicklist_ziplist (key : List Nat) (input : List Nat) :
    Res (List Event × List Nat) :=
  match read_blob input with
  | Res.crash => Res.crash
  | Res.ok (ziplist, rest) =>
    match read_ziplist_metadata ziplist with
    | Res.crash => Res.crash
    | Res.ok ((_zlbytes, _zltail, zllen), z1) =>
      match read_ziplist_entries key zllen z1 with
      | Res.crash => Res.crash
      | Res.ok (evs, z2) =>
        match read_byte z2 with
        | Res.crash => Res.crash
        | Res.ok (term, _) => if term = 0xFF then Res.ok (evs, rest) else Res.crash

/-! ## Zipmap (src/lib.rs lines 591-647) -/

/-- `read_zipmap_entry` (src/lib.rs lines 591-602): a length byte
(253 means four LE length bytes follow, 254/255 abort), then the bytes. -/
def read_zipmap_entry (next_byte : Nat) (input : List Nat) : Res (List Nat × List Nat) :=
  if next_byte = 253 then
    match read_le_u32 input with
    | Res.crash => Res.crash
    | Res.ok (elem_len, i1) =>
      match read_exact elem_len i1 with
      | Res.crash => Res.crash
      | Res.ok (bs, i2) => Res.ok (bs, i2)
  else if next_byte = 254 ∨ next_byte = 255 then Res.crash
  else
    match read_exact next_byte input with
    | Res.crash => Res.crash
    | Res.ok (bs, i1) => Res.ok (bs, i1)

/-- The zipmap scan loop (body of `read_hash_zipmap`): reads (key, free
byte, value) records, counting down `length` when it is positive, until
either the terminator byte `0xFF` is met or the countdown hits zero
(then the terminator is asserted).  Emits no formatter events — the
source pushes into a vector it only returns.  Each iteration consumes
at least one byte, so fuel `input.length + 1` is ample. -/
def read_hash_zipmap_loop : Nat → Int → List Nat → Res (List Nat)
  | 0, _, _ => Res.crash
  | fuel + 1, length, input =>
    match read_byte input with
    | Res.crash => Res.crash
    | Res.ok (next_byte, i1) =>
      if next_byte = 0xFF then Res.ok i1
      else
        match read_zipmap_entry next_byte i1 with
        | Res.crash => Res.crash
        | Res.ok (_key, i2) =>
          match read_byte i2 with
          | Res.crash => Res.crash
          | Res.ok (nb2, i3) =>
            match read_byte i3 with
            | Res.crash => Res.crash
            | Res.ok (_free, i4) =>
              match read_zipmap_entry nb2 i4 with
              | Res.crash => Res.crash
              | Res.ok (_value, i5) =>
                let length2 := if length > 0 then length - 1 else length
                if length2 = 0 then
                  match read_byte i5 with
                  | Res.crash => Res.crash
                  | Res.ok (b, i6) => if b = 0xFF then Res.ok i6 else Res.crash
                else read_hash_zipmap_loop fuel length2 i5

/-- `read_hash_zipmap` (src/lib.rs lines 604-647): one blob scanned as
a zipmap; note the source emits no formatter events for this type.  The
result is the unconsumed remainder of the outer input. -/
def read_hash_zipmap (input : List Nat) : Res (List Nat) :=
  match read_blob input with
  | Res.crash => Res.crash
  | Res.ok (zipmap, rest) =>
    match read_byte zipmap with
    | Res.crash => Res.crash
    | Res.ok (zmlen, z1) =>
      let length : Int := if zmlen ≤ 254 then (zmlen : Int) else -1
      match read_hash_zipmap_loop (z1.length + 1) length z1 with
      | Res.crash => Res.crash
      | Res.ok _ => Res.ok rest

/-! ## Intset (src/lib.rs lines 649-674) -/

/-- The width dispatch of the intset loop body (the inner `match` on
`byte_size`): integers of width 2, 4 or 8 bytes; anything else aborts. -/
def intset_read_val (byte_size : Nat) (input : List Nat) : Res (Int × List Nat) :=
  match byte_size with
  | 2 => read_le_i16 input
  | 4 => read_le_i32 input
  | 8 => read_le_i64 input
  | _ => Res.crash

/-- The intset element loop: `n` integers of width `byte_size`,
each emitted as decimal text. -/
def read_set_intset_loop (key : List Nat) (byte_size : Nat) :
    Nat → List Nat → Res (List Event × List Nat)
  | 0, input => Res.ok ([], input)
  | n + 1, input =>
    match intset_read_val byte_size input with
    | Res.crash => Res.crash
    | Res.ok (val, i1) =>
      match read_set_intset_loop key byte_size n i1 with
      | Res.crash => Res.crash
      | Res.ok (evs, rest) =>
        Res.ok (Event.set_element key (int_to_vec val) :: evs, rest)

/-- `read_set_intset` (src/lib.rs lines 649-674): one blob holding a
byte width, a count and that many packed integers; set events. -/
def read_set_intset (key : List Nat) (expiry : Option Nat) (input : List Nat) :
    Res (List Event × List Nat) :=
  match read_blob input with
  | Res.crash => Res.crash
  | Res.ok (intset, rest) =>
    match read_le_u32 intset with
    | Res.crash => Res.crash
    | Res.ok (byte_size, s1) =>
      match read_le_u32 s1 with
      | Res.crash => Res.crash
      | Res.ok (intset_length, s2) =>
        match read_set_intset_loop key byte_size intset_length s2 with
        | Res.crash => Res.crash
        | Res.ok (evs, _) =>
          Res.ok (Event.start_set key intset_length expiry :: evs ++
                  [Event.end_set key], rest)

/-! ## Quicklist (src/lib.rs lines 676-690) -/

/-- The quicklist child loop: `len` child ziplist blobs. -/
def read_quicklist_loop (key : List Nat) : Nat → List Nat → Res (List Event × List Nat)
  | 0, input => Res.ok ([], input)
  | n + 1, input =>
    match read_quicklist_ziplist key input with
    | Res.crash => Res.crash
    | Res.ok (evs, i1) =>
      match read_quicklist_loop key n i1 with
      | Res.crash => Res.crash
      | Res.ok (evs2, rest) => Res.ok (evs ++ evs2, rest)

/-- `read_quicklist` (src/lib.rs lines 676-690): a length prefix, then
that many child ziplists.  Note the source emits `start_set(key, 0,
expiry)` and `end_set(key)` around the forwarded `list_element`
entries. -/
def read_quicklist (key : List Nat) (expiry : Option Nat) (input : List Nat) :
    Res (List Event × List Nat) :=
  match read_length input with
  | Res.crash => Res.crash
  | Res.ok (len, i1) =>
    match read_quicklist_loop key len i1 with
    | Res.crash => Res.crash
    | Res.ok (evs, rest) =>
      Res.ok (Event.start_set key 0 expiry :: evs ++ [Event.end_set key], rest)

/-! ## Linked-list, sorted-set and hash readers (src/lib.rs lines 414-484) -/

/-- The element loop of `read_linked_list`: `len` blobs via `list_element`. -/
def read_linked_list_loop (key : List Nat) : Nat → List Nat → Res (List Event × List Nat)
  | 0, input => Res.ok ([], input)
  | len + 1, input =>
    match read_blob input with
    | Res.crash => Res.crash
    | Res.ok (blob, i1) =>
      match read_linked_list_loop key len i1 with
      | Res.crash => Res.crash
      | Res.ok (evs, rest) => Res.ok (Event.list_element key blob :: evs, rest)

/-- `read_linked_list` (src/lib.rs lines 414-430); used for both LIST
and SET records, so both bracket their elements with
`start_list`/`end_list` events. -/
def read_linked_list (key : List Nat) (expiry : Option Nat) (input : List Nat) :
    Res (List Event × List Nat) :=
  match read_length input with
  | Res.crash => Res.crash
  | Res.ok (len, i1) =>
    match read_linked_list_loop key len i1 with
    | Res.crash => Res.crash
    | Res.ok (evs, rest) =>
      Res.ok (Event.start_list key len expiry :: evs ++ [Event.end_list key], rest)

/-- One sorted-set score: a raw length byte, where 253/254/255 are the
NaN / +infinity / -infinity sentinels and any other value counts ASCII
score bytes handed to the float parser. -/
def read_score (input : List Nat) : Res (Score × List Nat) :=
  match read_byte input with
  | Res.crash => Res.crash
  | Res.ok (score_length, i1) =>
    if score_length = 253 then Res.ok (Score.nan, i1)
    else if score_length = 254 then Res.ok (Score.inf, i1)
    else if score_length = 255 then Res.ok (Score.neginf, i1)
    else
      match read_exact score_length i1 with
      | Res.crash => Res.crash
      | Res.ok (tmp, i2) => Res.ok (Score.text tmp, i2)

/-- The element loop of `read_sorted_set`: member blob then score. -/
def read_sorted_set_loop (key : List Nat) : Nat → List Nat → Res (List Event × List Nat)
  | 0, input => Res.ok ([], input)
  | n + 1, input =>
    match read_blob input with
    | Res.crash => Res.crash
    | Res.ok (val, i1) =>
      match read_score i1 with
      | Res.crash => Res.crash
      | Res.ok (score, i2) =>
        match read_sorted_set_loop key n i2 with
        | Res.crash => Res.crash
        | Res.ok (evs, rest) =>
          Res.ok (Event.sorted_set_element key score val :: evs, rest)

/-- `read_sorted_set` (src/lib.rs lines 432-461). -/
def read_sorted_set (key : List Nat) (expiry : Option Nat) (input : List Nat) :
    Res (List Event × List Nat) :=
  match read_length input with
  | Res.crash => Res.crash
  | Res.ok (set_items, i1) =>
    match read_sorted_set_loop key set_items i1 with
    | Res.crash => Res.crash
    | Res.ok (evs, rest) =>
      Res.ok (Event.start_sorted_set key set_items expiry :: evs ++
              [Event.end_sorted_set key], rest)

/-- The element loop of `read_hash`: field blob then value blob. -/
def read_hash_loop (key : List Nat) : Nat → List Nat → Res (List Event × List Nat)
  | 0, input => Res.ok ([], input)
  | n + 1, input =>
    match read_blob input with
    | Res.crash => Res.crash
    | Res.ok (field, i1) =>
      match read_blob i1 with
      | Res.crash => Res.crash
      | Res.ok (val, i2) =>
        match read_hash_loop key n i2 with
        | Res.crash => Res.crash
        | Res.ok (evs, rest) =>
          Res.ok (Event.hash_element key field val :: evs, rest)

/-- `read_hash` (src/lib.rs lines 463-484). -/
def read_hash (key : List Nat) (expiry : Option Nat) (input : List Nat) :
    Res (List Event × List Nat) :=
  match read_length input with
  | Res.crash => Res.crash
  | Res.ok (hash_items, i1) =>
    match read_hash_loop key hash_items i1 with
    | Res.crash => Res.crash
    | Res.ok (evs, rest) =>
      Res.ok (Event.start_hash key hash_items expiry :: evs ++
              [Event.end_hash key], rest)

/-! ## Value-type dispatcher and skip path (src/lib.rs lines 692-781) -/

/-- `read_type` (src/lib.rs lines 692-731): dispatch on the
encoding-type byte; an unknown type byte (including 5, 6, 7) aborts.
The if-chain mirrors the source match arm by arm. -/
def read_type (key : List Nat) (value_type : Nat) (expiry : Option Nat)
    (input : List Nat) : Res (List Event × List Nat) :=
  if value_type = types.STRING then
    match read_blob input with
    | Res.crash => Res.crash
    | Res.ok (val, rest) => Res.ok ([Event.set key val expiry], rest)
  else if value_type = types.LIST then read_linked_list key expiry input
  else if value_type = types.SET then read_linked_list key expiry input
  else if value_type = types.ZSET then read_sorted_set key expiry input
  else if value_type = types.HASH then read_hash key expiry input
  else if value_type = types.HASH_ZIPMAP then
    match read_hash_zipmap input with
    | Res.crash => Res.crash
    | Res.ok rest => Res.ok ([], rest)
  else if value_type = types.LIST_ZIPLIST then read_list_ziplist key expiry input
  else if value_type = types.SET_INTSET then read_set_intset key expiry input
  else if value_type = types.ZSET_ZIPLIST then read_list_ziplist key expiry input
  else if value_type = types.HASH_ZIPLIST then read_list_ziplist key expiry input
  else if value_type = types.LIST_QUICKLIST then read_quicklist key expiry input
  else Res.crash

/-- `skip` (src/lib.rs lines 733-735). -/
def skip (skip_bytes : Nat) (input : List Nat) : Res (List Nat) :=
  match read_exact skip_bytes input with
  | Res.crash => Res.crash
  | Res.ok (_, rest) => Res.ok rest

/-- `skip_blob` (src/lib.rs lines 737-758): a length prefix; encoded
sub-codes map to fixed widths (LZF to two more lengths plus the
compressed run), raw lengths to themselves. -/
def skip_blob (input : List Nat) : Res (List Nat) :=
  match read_length_with_encoding input with
  | Res.crash => Res.crash
  | Res.ok ((len, is_encoded), i1) =>
    if is_encoded then
      match len with
      | 0 => skip 1 i1
      | 1 => skip 2 i1
      | 2 => skip 4 i1
      | 3 =>
        match read_length i1 with
        | Res.crash => Res.crash
        | Res.ok (compressed_length, i2) =>
          match read_length i2 with
          | Res.crash => Res.crash
          | Res.ok (_real_length, i3) => skip compressed_length i3
      | _ => Res.crash
    else skip len i1

/-- Skip `n` blobs (the `for _ in (0..blobs_to_skip)` loop). -/
def skip_blobs : Nat → List Nat → Res (List Nat)
  | 0, input => Res.ok input
  | n + 1, input =>
    match skip_blob input with
    | Res.crash => Res.crash
    | Res.ok rest => skip_blobs n rest

/-- `skip_object` (src/lib.rs lines 760-776): a blob count per
encoding type — note type 14 (LIST_QUICKLIST) falls to the aborting
default arm. -/
def skip_object (enc_type : Nat) (input : List Nat) : Res (List Nat) :=
  if enc_type = types.STRING ∨ enc_type = types.HASH_ZIPMAP ∨
     enc_type = types.LIST_ZIPLIST ∨ enc_type = types.SET_INTSET ∨
     enc_type = types.ZSET_ZIPLIST ∨ enc_type = types.HASH_ZIPLIST then
    skip_blobs 1 input
  else if enc_type = types.LIST ∨ enc_type = types.SET then
    match read_length input with
    | Res.crash => Res.crash
    | Res.ok (n, i1) => skip_blobs n i1
  else if enc_type = types.ZSET ∨ enc_type = types.HASH then
    match read_length input with
    | Res.crash => Res.crash
    | Res.ok (n, i1) => skip_blobs (n * 2) i1
  else Res.crash

/-- `skip_key_and_object` (src/lib.rs lines 778-781). -/
def skip_key_and_object (enc_type : Nat) (input : List Nat) : Res (List Nat) :=
  match skip_blob input with
  | Res.crash => Res.crash
  | Res.ok i1 => skip_object enc_type i1

/-! ## Top-level state machine (src/lib.rs lines 347-412) -/

/-- The key-record arm of the opcode loop (the `_` arm of the source
match, src/lib.rs lines 394-408, up to the expire-latch clearing): when
the filter admits the current database, read the key blob and either
dispatch the value or skip it; otherwise skip key and value. -/
def rdbKeyRecord (f : Filter) (op : Nat) (db : Nat) (expiry : Option Nat)
    (input : List Nat) : Res (List Event × List Nat) :=
  if f.matches_db db then
    match read_blob input with
    | Res.crash => Res.crash
    | Res.ok (key, i1) =>
      if f.matches_type op && f.matches_key key then
        read_type key op expiry i1
      else
        match skip_object op i1 with
        | Res.crash => Res.crash
        | Res.ok rest => Res.ok ([], rest)
  else
    match skip_key_and_object op input with
    | Res.crash => Res.crash
    | Res.ok rest => Res.ok ([], rest)

/-- One iteration of the opcode loop of `RdbParser::parse`, after the
opcode byte was read: returns the emitted events, the new
`last_database`, the new `last_expiretime`, the unconsumed input and
whether the loop terminated (EOF opcode).  The if-chain mirrors the
source match arm by arm; any byte that is no opcode introduces a key
record. -/
def rdbStep (f : Filter) (op : Nat) (db : Nat) (expiry : Option Nat)
    (input : List Nat) : Res (List Event × Nat × Option Nat × List Nat × Bool) :=
  if op = op_codes.SELECTDB then
    match read_length input with
    | Res.crash => Res.crash
    | Res.ok (last_database, i1) =>
      Res.ok ((if f.matches_db last_database then
                 [Event.start_database last_database] else []),
              last_database, expiry, i1, false)
  else if op = op_codes.EOF then
    Res.ok ([Event.end_database db, Event.end_rdb, Event.checksum input],
            db, expiry, [], true)
  else if op = op_codes.EXPIRETIME_MS then
    match read_le_u64 input with
    | Res.crash => Res.crash
    | Res.ok (expiretime_ms, i1) => Res.ok ([], db, some expiretime_ms, i1, false)
  else if op = op_codes.EXPIRETIME then
    match read_be_u32 input with
    | Res.crash => Res.crash
    | Res.ok (expiretime, i1) => Res.ok ([], db, some (expiretime * 1000), i1, false)
  else if op = op_codes.RESIZEDB then
    match read_length input with
    | Res.crash => Res.crash
    | Res.ok (db_size, i1) =>
      match read_length i1 with
      | Res.crash => Res.crash
      | Res.ok (expires_size, i2) =>
        Res.ok ([Event.resizedb db_size expires_size], db, expiry, i2, false)
  else if op = op_codes.AUX then
    match read_blob input with
    | Res.crash => Res.crash
    | Res.ok (auxkey, i1) =>
      match read_blob i1 with
      | Res.crash => Res.crash
      | Res.ok (auxval, i2) =>
        Res.ok ([Event.aux_field auxkey auxval], db, expiry, i2, false)
  else
    match rdbKeyRecord f op db expiry input with
    | Res.crash => Res.crash
    | Res.ok (evs, rest) => Res.ok (evs, db, none, rest, false)

/-- The opcode loop of `RdbParser::parse`.  Every iteration consumes at
least the opcode byte, so fuel `input.length + 1` is ample; exhausted
fuel is modelled as `crash` and is unreachable from `parse`. -/
def rdbLoop (f : Filter) : Nat → Nat → Option Nat → List Nat → Res (List Event)
  | 0, _, _, _ => Res.crash
  | fuel + 1, db, expiry, input =>
    match read_byte input with
    | Res.crash => Res.crash
    | Res.ok (op, i1) =>
      match rdbStep f op db expiry i1 with
      | Res.crash => Res.crash
      | Res.ok (evs, db2, e2, rest, done) =>
        if done then Res.ok evs
        else
          match rdbLoop f fuel db2 e2 rest with
          | Res.crash => Res.crash
          | Res.ok evs2 => Res.ok (evs ++ evs2)

/-- `RdbParser::parse` (src/lib.rs lines 347-412): assert the magic and
version (an abort on failure), emit `start_rdb`, then run the opcode
loop with `last_database = 0` and no latched expire time. -/
def parse (f : Filter) (input : List Nat) : Res (List Event) :=
  match verify_magic input with
  | Res.crash => Res.crash
  | Res.ok (m, i1) =>
    if m then
      match verify_version i1 with
      | Res.crash => Res.crash
      | Res.ok (v, i2) =>
        if v then
          match rdbLoop f (i2.length + 1) 0 none i2 with
          | Res.crash => Res.crash
          | Res.ok evs => Res.ok (Event.start_rdb :: evs)
        else Res.crash
    else Res.crash

/-! ## Event classification helpers -/

/-- Events that close or frame the whole stream: `start_rdb`,
`end_rdb`, `end_database` and `checksum`.  (`start_database` is not
among them: it may occur many times in a parse.) -/
def Event.isClosing : Event → Bool
  | Event.start_rdb => true
  | Event.end_rdb => true
  | Event.end_database _ => true
  | Event.checksum _ => true
  | _ => false

/-- The expiry field carried by an event, when it has one
(the `set` and `start_X` callbacks). -/
def Event.expiryOf : Event → Option (Option Nat)
  | Event.set _ _ e => some e
  | Event.start_hash _ _ e => some e
  | Event.start_set _ _ e => some e
  | Event.start_list _ _ e => some e
  | Event.start_sorted_set _ _ e => some e
  | _ => none

/-- Whether an event is a `start_database` callback. -/
def Event.isStartDatabase : Event → Bool
  | Event.start_database _ => true
  | _ => false

/-- The last database id of a SELECTDB chain, or the starting id when
the chain is empty (the claim's "0 if none" at the top level). -/
def lastDb : Nat → List Nat → Nat
  | db, [] => db
  | _, i :: sels => lastDb i sels

/-- The database-selection observer: it runs the very same opcode loop
as `rdbLoop` — stepping with the same `rdbStep` — but records, instead
of the formatter events, the ids read at SELECTDB opcodes (in stream
order, filtered or not) and the `last_database` value current at the
EOF opcode.  It exists only to state which database ids a given input
selects. -/
def rdbLoopDbs (f : Filter) : Nat → Nat → Option Nat → List Nat → Res (List Nat × Nat)
  | 0, _, _, _ => Res.crash
  | fuel + 1, db, expiry, input =>
    match read_byte input with
    | Res.crash => Res.crash
    | Res.ok (op, i1) =>
      match rdbStep f op db expiry i1 with
      | Res.crash => Res.crash
      | Res.ok (_, db2, e2, rest, done) =>
        if done then Res.ok ([], db)
        else
          match rdbLoopDbs f fuel db2 e2 rest with
          | Res.crash => Res.crash
          | Res.ok (sels, d) =>
            Res.ok ((if op = op_codes.SELECTDB then db2 :: sels else sels), d)

/-- `rdbLoopDbs` lifted over the header checks, mirroring `parse`. -/
def parseDbs (f : Filter) (input : List Nat) : Res (List Nat × Nat) :=
  match verify_magic input with
  | Res.crash => Res.crash
  | Res.ok (m, i1) =>
    if m then
      match verify_version i1 with
      | Res.crash => Res.crash
      | Res.ok (v, i2) =>
        if v then rdbLoopDbs f (i2.length + 1) 0 none i2
        else Res.crash
    else Res.crash


/-- The discipline every event emitted inside a key record obeys: it is
not a stream-closing event, and if it carries an expiry field then that
field is exactly the latched expire time `e`. -/
def recordEventOk (e : Option Nat) (ev : Event) : Prop :=
  ev.isClosing = false ∧ ev.isStartDatabase = false
    ∧ ∀ x, ev.expiryOf = some x → x = e

/-! ## Helper lemmas: events emitted by the element loops -/

theorem read_linked_list_loop_events (key : List Nat) :
    ∀ n input evs rest, read_linked_list_loop key n input = Res.ok (evs, rest) →
      ∀ ev ∈ evs, ∃ v, ev = Event.list_element key v := by
  intro n
  induction n with
  | zero =>
    intro input evs rest h ev hev
    simp only [read_linked_list_loop, Res.ok.injEq, Prod.mk.injEq] at h
    rcases h with ⟨rfl, rfl⟩
    simp at hev
  | succ n ih =>
    intro input evs rest h ev hev
    cases hb : read_blob input with
    | crash =>
      simp only [read_linked_list_loop, hb] at h
      exact Res.noConfusion h
    | ok p =>
      obtain ⟨blob, i1⟩ := p
      cases hl : read_linked_list_loop key n i1 with
      | crash =>
        simp only [read_linked_list_loop, hb, hl] at h
        exact Res.noConfusion h
      | ok q =>
        obtain ⟨evs0, rest0⟩ := q
        simp only [read_linked_list_loop, hb, hl, Res.ok.injEq, Prod.mk.injEq] at h
        rcases h with ⟨rfl, rfl⟩
        rcases List.mem_cons.mp hev with rfl | hev2
        · exact ⟨blob, rfl⟩
        · exact ih i1 evs0 rest0 hl ev hev2

theorem read_sorted_set_loop_events (key : List Nat) :
    ∀ n input evs rest, read_sorted_set_loop key n input = Res.ok (evs, rest) →
      ∀ ev ∈ evs, ∃ s v, ev = Event.sorted_set_element key s v := by
  intro n
  induction n with
  | zero =>
    intro input evs rest h ev hev
    simp only [read_sorted_set_loop, Res.ok.injEq, Prod.mk.injEq] at h
    rcases h with ⟨rfl, rfl⟩
    simp at hev
  | succ n ih =>
    intro input evs rest h ev hev
    cases hb : read_blob input with
    | crash =>
      simp only [read_sorted_set_loop, hb] at h
      exact Res.noConfusion h
    | ok p =>
      obtain ⟨val, i1⟩ := p
      cases hs : read_score i1 with
      | crash =>
        simp only [read_sorted_set_loop, hb, hs] at h
        exact Res.noConfusion h
      | ok q =>
        obtain ⟨score, i2⟩ := q
        cases hl : read_sorted_set_loop key n i2 with
        | crash =>
          simp only [read_sorted_set_loop, hb, hs, hl] at h
          exact Res.noConfusion h
        | ok r =>
          obtain ⟨evs0, rest0⟩ := r
          simp only [read_sorted_set_loop, hb, hs, hl, Res.ok.injEq, Prod.mk.injEq] at h
          rcases h with ⟨rfl, rfl⟩
          rcases List.mem_cons.mp hev with rfl | hev2
          · exact ⟨score, val, rfl⟩
          · exact ih i2 evs0 rest0 hl ev hev2

theorem read_hash_loop_events (key : List Nat) :
    ∀ n input evs rest, read_hash_loop key n input = Res.ok (evs, rest) →
      ∀ ev ∈ evs, ∃ a b, ev = Event.hash_element key a b := by
  intro n
  induction n with
  | zero =>
    intro input evs rest h ev hev
    simp only [read_hash_loop, Res.ok.injEq, Prod.mk.injEq] at h
    rcases h with ⟨rfl, rfl⟩
    simp at hev
  | succ n ih =>
    intro input evs rest h ev hev
    cases hb : read_blob input with
    | crash =>
      simp only [read_hash_loop, hb] at h
      exact Res.noConfusion h
    | ok p =>
      obtain ⟨field, i1⟩ := p
      cases hv : read_blob i1 with
      | crash =>
        simp only [read_hash_loop, hb, hv] at h
        exact Res.noConfusion h
      | ok q =>
        obtain ⟨val, i2⟩ := q
        cases hl : read_hash_loop key n i2 with
        | crash =>
          simp only [read_hash_loop, hb, hv, hl] at h
          exact Res.noConfusion h
        | ok r =>
          obtain ⟨evs0, rest0⟩ := r
          simp only [read_hash_loop, hb, hv, hl, Res.ok.injEq, Prod.mk.injEq] at h
          rcases h with ⟨rfl, rfl⟩
          rcases List.mem_cons.mp hev with rfl | hev2
          · exact ⟨field, val, rfl⟩
          · exact ih i2 evs0 rest0 hl ev hev2

theorem read_set_intset_loop_events (key : List Nat) (byte_size : Nat) :
    ∀ n input evs rest, read_set_intset_loop key byte_size n input = Res.ok (evs, rest) →
      ∀ ev ∈ evs, ∃ v, ev = Event.set_element key v := by
  intro n
  induction n with
  | zero =>
    intro input evs rest h ev hev
    simp only [read_set_intset_loop, Res.ok.injEq, Prod.mk.injEq] at h
    rcases h with ⟨rfl, rfl⟩
    simp at hev
  | succ n ih =>
    intro input evs rest h ev hev
    cases hb : intset_read_val byte_size input with
    | crash =>
      simp only [read_set_intset_loop, hb] at h
      exact Res.noConfusion h
    | ok p =>
      obtain ⟨val, i1⟩ := p
      cases hl : read_set_intset_loop key byte_size n i1 with
      | crash =>
        simp only [read_set_intset_loop, hb, hl] at h
        exact Res.noConfusion h
      | ok q =>
        obtain ⟨evs0, rest0⟩ := q
        simp only [read_set_intset_loop, hb, hl, Res.ok.injEq, Prod.mk.injEq] at h
        rcases h with ⟨rfl, rfl⟩
        rcases List.mem_cons.mp hev with rfl | hev2
        · exact ⟨int_to_vec val, rfl⟩
        · exact ih i1 evs0 rest0 hl ev hev2

theorem read_ziplist_entries_events (key : List Nat) :
    ∀ n input evs rest, read_ziplist_entries key n input = Res.ok (evs, rest) →
      ∀ ev ∈ evs, ∃ v, ev = Event.list_element key v := by
  intro n
  induction n with
  | zero =>
    intro input evs rest h ev hev
    simp only [read_ziplist_entries, Res.ok.injEq, Prod.mk.injEq] at h
    rcases h with ⟨rfl, rfl⟩
    simp at hev
  | succ n ih =>
    intro input evs rest h ev hev
    cases hb : read_ziplist_entry input with
    | crash =>
      simp only [read_ziplist_entries, hb] at h
      exact Res.noConfusion h
    | ok p =>
      obtain ⟨entry, i1⟩ := p
      cases hl : read_ziplist_entries key n i1 with
      | crash =>
        simp only [read_ziplist_entries, hb, hl] at h
        exact Res.noConfusion h
      | ok q =>
        obtain ⟨evs0, rest0⟩ := q
        simp only [read_ziplist_entries, hb, hl, Res.ok.injEq, Prod.mk.injEq] at h
        rcases h with ⟨rfl, rfl⟩
        rcases List.mem_cons.mp hev with rfl | hev2
        · cases entry with
          | str v => exact ⟨v, rfl⟩
          | num v => exact ⟨int_to_vec v, rfl⟩
        · exact ih i1 evs0 rest0 hl ev hev2

theorem read_quicklist_ziplist_events (key : List Nat) (input : List Nat)
    (evs : List Event) (rest : List Nat)
    (h : read_quicklist_ziplist key input = Res.ok (evs, rest)) :
    ∀ ev ∈ evs, ∃ v, ev = Event.list_element key v := by
  cases hb : read_blob input with
  | crash =>
    simp only [read_quicklist_ziplist, hb] at h
    exact Res.noConfusion h
  | ok p =>
    obtain ⟨zl, r0⟩ := p
    cases hm : read_ziplist_metadata zl with
    | crash =>
      simp only [read_quicklist_ziplist, hb, hm] at h
      exact Res.noConfusion h
    | ok q =>
      obtain ⟨⟨zlbytes, zltail, zllen⟩, z1⟩ := q
      cases he : read_ziplist_entries key zllen z1 with
      | crash =>
        simp only [read_quicklist_ziplist, hb, hm, he] at h
        exact Res.noConfusion h
      | ok s =>
        obtain ⟨evs0, z2⟩ := s
        cases ht : read_byte z2 with
        | crash =>
          simp only [read_quicklist_ziplist, hb, hm, he, ht] at h
          exact Res.noConfusion h
        | ok t =>
          obtain ⟨term, z3⟩ := t
          by_cases hterm : term = 0xFF
          · simp only [read_quicklist_ziplist, hb, hm, he, ht, hterm, if_pos,
              Res.ok.injEq, Prod.mk.injEq] at h
            rcases h with ⟨rfl, rfl⟩
            exact read_ziplist_entries_events key zllen z1 _ _ he
          · simp only [read_quicklist_ziplist, hb, hm, he, ht, hterm, if_neg,
              if_false] at h
            exact Res.noConfusion h

theorem read_quicklist_loop_events (key : List Nat) :
    ∀ n input evs rest, read_quicklist_loop key n input = Res.ok (evs, rest) →
      ∀ ev ∈ evs, ∃ v, ev = Event.list_element key v := by
  intro n
  induction n with
  | zero =>
    intro input evs rest h ev hev
    simp only [read_quicklist_loop, Res.ok.injEq, Prod.mk.injEq] at h
    rcases h with ⟨rfl, rfl⟩
    simp at hev
  | succ n ih =>
    intro input evs rest h ev hev
    cases hb : read_quicklist_ziplist key input with
    | crash =>
      simp only [read_quicklist_loop, hb] at h
      exact Res.noConfusion h
    | ok p =>
      obtain ⟨evs1, i1⟩ := p
      cases hl : read_quicklist_loop key n i1 with
      | crash =>
        simp only [read_quicklist_loop, hb, hl] at h
        exact Res.noConfusion h
      | ok q =>
        obtain ⟨evs2, rest0⟩ := q
        simp only [read_quicklist_loop, hb, hl, Res.ok.injEq, Prod.mk.injEq] at h
        rcases h with ⟨rfl, rfl⟩
        rcases List.mem_append.mp hev with hev1 | hev2
        · exact read_quicklist_ziplist_events key input evs1 i1 hb ev hev1
        · exact ih i1 evs2 rest0 hl ev hev2

/-! ## Helper lemmas: events emitted by one key record -/

theorem read_linked_list_events (key : List Nat) (e : Option Nat) (input : List Nat)
    (evs : List Event) (rest : List Nat)
    (h : read_linked_list key e input = Res.ok (evs, rest)) :
    ∀ ev ∈ evs, recordEventOk e ev := by
  cases hl : read_length input with
  | crash =>
    simp only [read_linked_list, hl] at h
    exact Res.noConfusion h
  | ok p =>
    obtain ⟨len, i1⟩ := p
    cases hlp : read_linked_list_loop key len i1 with
    | crash =>
      simp only [read_linked_list, hl, hlp] at h
      exact Res.noConfusion h
    | ok q =>
      obtain ⟨evs0, rest0⟩ := q
      simp only [read_linked_list, hl, hlp, Res.ok.injEq, Prod.mk.injEq] at h
      rcases h with ⟨rfl, rfl⟩
      intro ev hev
      rcases List.mem_cons.mp hev with rfl | hev2
      · simp [recordEventOk, Event.isClosing, Event.isStartDatabase, Event.expiryOf]
      rcases List.mem_append.mp hev2 with hev3 | hev4
      · obtain ⟨v, rfl⟩ := read_linked_list_loop_events key len i1 evs0 rest0 hlp ev hev3
        simp [recordEventOk, Event.isClosing, Event.isStartDatabase, Event.expiryOf]
      · rcases List.mem_singleton.mp hev4 with rfl
        simp [recordEventOk, Event.isClosing, Event.isStartDatabase, Event.expiryOf]

theorem read_sorted_set_events (key : List Nat) (e : Option Nat) (input : List Nat)
    (evs : List Event) (rest : List Nat)
    (h : read_sorted_set key e input = Res.ok (evs, rest)) :
    ∀ ev ∈ evs, recordEventOk e ev := by
  cases hl : read_length input with
  | crash =>
    simp only [read_sorted_set, hl] at h
    exact Res.noConfusion h
  | ok p =>
    obtain ⟨n, i1⟩ := p
    cases hlp : read_sorted_set_loop key n i1 with
    | crash =>
      simp only [read_sorted_set, hl, hlp] at h
      exact Res.noConfusion h
    | ok q =>
      obtain ⟨evs0, rest0⟩ := q
      simp only [read_sorted_set, hl, hlp, Res.ok.injEq, Prod.mk.injEq] at h
      rcases h with ⟨rfl, rfl⟩
      intro ev hev
      rcases List.mem_cons.mp hev with rfl | hev2
      · simp [recordEventOk, Event.isClosing, Event.isStartDatabase, Event.expiryOf]
      rcases List.mem_append.mp hev2 with hev3 | hev4
      · obtain ⟨s, v, rfl⟩ := read_sorted_set_loop_events key n i1 evs0 rest0 hlp ev hev3
        simp [recordEventOk, Event.isClosing, Event.isStartDatabase, Event.expiryOf]
      · rcases List.mem_singleton.mp hev4 with rfl
        simp [recordEventOk, Event.isClosing, Event.isStartDatabase, Event.expiryOf]

theorem read_hash_events (key : List Nat) (e : Option Nat) (input : List Nat)
    (evs : List Event) (rest : List Nat)
    (h : read_hash key e input = Res.ok (evs, rest)) :
    ∀ ev ∈ evs, recordEventOk e ev := by
  cases hl : read_length input with
  | crash =>
    simp only [read_hash, hl] at h
    exact Res.noConfusion h
  | ok p =>
    obtain ⟨n, i1⟩ := p
    cases hlp : read_hash_loop key n i1 with
    | crash =>
      simp only [read_hash, hl, hlp] at h
      exact Res.noConfusion h
    | ok q =>
      obtain ⟨evs0, rest0⟩ := q
      simp only [read_hash, hl, hlp, Res.ok.injEq, Prod.mk.injEq] at h
      rcases h with ⟨rfl, rfl⟩
      intro ev hev
      rcases List.mem_cons.mp hev with rfl | hev2
      · simp [recordEventOk, Event.isClosing, Event.isStartDatabase, Event.expiryOf]
      rcases List.mem_append.mp hev2 with hev3 | hev4
      · obtain ⟨a, b, rfl⟩ := read_hash_loop_events key n i1 evs0 rest0 hlp ev hev3
        simp [recordEventOk, Event.isClosing, Event.isStartDatabase, Event.expiryOf]
      · rcases List.mem_singleton.mp hev4 with rfl
        simp [recordEventOk, Event.isClosing, Event.isStartDatabase, Event.expiryOf]

theorem read_list_ziplist_events (key : List Nat) (e : Option Nat) (input : List Nat)
    (evs : List Event) (rest : List Nat)
    (h : read_list_ziplist key e input = Res.ok (evs, rest)) :
    ∀ ev ∈ evs, recordEventOk e ev := by
  cases hb : read_blob input with
  | crash =>
    simp only [read_list_ziplist, hb] at h
    exact Res.noConfusion h
  | ok p =>
    obtain ⟨zl, r0⟩ := p
    cases hm : read_ziplist_metadata zl with
    | crash =>
      simp only [read_list_ziplist, hb, hm] at h
      exact Res.noConfusion h
    | ok q =>
      obtain ⟨⟨zlbytes, zltail, zllen⟩, z1⟩ := q
      cases he : read_ziplist_entries key zllen z1 with
      | crash =>
        simp only [read_list_ziplist, hb, hm, he] at h
        exact Res.noConfusion h
      | ok s =>
        obtain ⟨evs0, z2⟩ := s
        cases ht : read_byte z2 with
        | crash =>
          simp only [read_list_ziplist, hb, hm, he, ht] at h
          exact Res.noConfusion h
        | ok t =>
          obtain ⟨term, z3⟩ := t
          by_cases hterm : term = 0xFF
          · simp only [read_list_ziplist, hb, hm, he, ht, hterm, if_pos,
              Res.ok.injEq, Prod.mk.injEq] at h
            rcases h with ⟨rfl, rfl⟩
            intro ev hev
            rcases List.mem_cons.mp hev with rfl | hev2
            · simp [recordEventOk, Event.isClosing, Event.isStartDatabase, Event.expiryOf]
            rcases List.mem_append.mp hev2 with hev3 | hev4
            · obtain ⟨v, rfl⟩ := read_ziplist_entries_events key zllen z1 evs0 z2 he ev hev3
              simp [recordEventOk, Event.isClosing, Event.isStartDatabase, Event.expiryOf]
            · rcases List.mem_singleton.mp hev4 with rfl
              simp [recordEventOk, Event.isClosing, Event.isStartDatabase, Event.expiryOf]
          · simp only [read_list_ziplist, hb, hm, he, ht, hterm, if_neg, if_false] at h
            exact Res.noConfusion h

theorem read_set_intset_events (key : List Nat) (e : Option Nat) (input : List Nat)
    (evs : List Event) (rest : List Nat)
    (h : read_set_intset key e input = Res.ok (evs, rest)) :
    ∀ ev ∈ evs, recordEventOk e ev := by
  cases hb : read_blob input with
  | crash =>
    simp only [read_set_intset, hb] at h
    exact Res.noConfusion h
  | ok p =>
    obtain ⟨intset, r0⟩ := p
    cases hw : read_le_u32 intset with
    | crash =>
      simp only [read_set_intset, hb, hw] at h
      exact Res.noConfusion h
    | ok q =>
      obtain ⟨byte_size, s1⟩ := q
      cases hn : read_le_u32 s1 with
      | crash =>
        simp only [read_set_intset, hb, hw, hn] at h
        exact Res.noConfusion h
      | ok s =>
        obtain ⟨n, s2⟩ := s
        cases hlp : read_set_intset_loop key byte_size n s2 with
        | crash =>
          simp only [read_set_intset, hb, hw, hn, hlp] at h
          exact Res.noConfusion h
        | ok t =>
          obtain ⟨evs0, s3⟩ := t
          simp only [read_set_intset, hb, hw, hn, hlp, Res.ok.injEq, Prod.mk.injEq] at h
          rcases h with ⟨rfl, rfl⟩
          intro ev hev
          rcases List.mem_cons.mp hev with rfl | hev2
          · simp [recordEventOk, Event.isClosing, Event.isStartDatabase, Event.expiryOf]
          rcases List.mem_append.mp hev2 with hev3 | hev4
          · obtain ⟨v, rfl⟩ := read_set_intset_loop_events key byte_size n s2 evs0 s3 hlp ev hev3
            simp [recordEventOk, Event.isClosing, Event.isStartDatabase, Event.expiryOf]
          · rcases List.mem_singleton.mp hev4 with rfl
            simp [recordEventOk, Event.isClosing, Event.isStartDatabase, Event.expiryOf]

theorem read_quicklist_events (key : List Nat) (e : Option Nat) (input : List Nat)
    (evs : List Event) (rest : List Nat)
    (h : read_quicklist key e input = Res.ok (evs, rest)) :
    ∀ ev ∈ evs, recordEventOk e ev := by
  cases hl : read_length input with
  | crash =>
    simp only [read_quicklist, hl] at h
    exact Res.noConfusion h
  | ok p =>
    obtain ⟨len, i1⟩ := p
    cases hlp : read_quicklist_loop key len i1 with
    | crash =>
      simp only [read_quicklist, hl, hlp] at h
      exact Res.noConfusion h
    | ok q =>
      obtain ⟨evs0, rest0⟩ := q
      simp only [read_quicklist, hl, hlp, Res.ok.injEq, Prod.mk.injEq] at h
      rcases h with ⟨rfl, rfl⟩
      intro ev hev
      rcases List.mem_cons.mp hev with rfl | hev2
      · simp [recordEventOk, Event.isClosing, Event.isStartDatabase, Event.expiryOf]
      rcases List.mem_append.mp hev2 with hev3 | hev4
      · obtain ⟨v, rfl⟩ := read_quicklist_loop_events key len i1 evs0 rest0 hlp ev hev3
        simp [recordEventOk, Event.isClosing, Event.isStartDatabase, Event.expiryOf]
      · rcases List.mem_singleton.mp hev4 with rfl
        simp [recordEventOk, Event.isClosing, Event.isStartDatabase, Event.expiryOf]

set_option maxHeartbeats 1000000 in
/-- Every event emitted by a dispatched key record obeys
`recordEventOk`: no closing event, and any carried expiry equals the
latched one. -/
theorem read_type_events (key : List Nat) (value_type : Nat) (e : Option Nat)
    (input : List Nat) (evs : List Event) (rest : List Nat)
    (h : read_type key value_type e input = Res.ok (evs, rest)) :
    ∀ ev ∈ evs, recordEventOk e ev := by
  unfold read_type at h
  split_ifs at h
  · -- STRING
    cases hb : read_blob input with
    | crash =>
      rw [hb] at h
      exact Res.noConfusion h
    | ok p =>
      obtain ⟨val, i1⟩ := p
      rw [hb] at h
      simp only [Res.ok.injEq, Prod.mk.injEq] at h
      rcases h with ⟨rfl, rfl⟩
      intro ev hev
      rcases List.mem_singleton.mp hev with rfl
      simp [recordEventOk, Event.isClosing, Event.isStartDatabase, Event.expiryOf]
  · exact read_linked_list_events key e input evs rest h
  · exact read_linked_list_events key e input evs rest h
  · exact read_sorted_set_events key e input evs rest h
  · exact read_hash_events key e input evs rest h
  · -- HASH_ZIPMAP: no events
    cases hz : read_hash_zipmap input with
    | crash =>
      rw [hz] at h
      exact Res.noConfusion h
    | ok r =>
      rw [hz] at h
      simp only [Res.ok.injEq, Prod.mk.injEq] at h
      rcases h with ⟨rfl, rfl⟩
      intro ev hev
      simp at hev
  · exact read_list_ziplist_events key e input evs rest h
  · exact read_set_intset_events key e input evs rest h
  · exact read_list_ziplist_events key e input evs rest h
  · exact read_list_ziplist_events key e input evs rest h
  · exact read_quicklist_events key e input evs rest h

/-! ## Helper lemmas: the opcode loop -/

theorem rdbKeyRecord_events (f : Filter) (op db : Nat) (e : Option Nat)
    (input : List Nat) (evs : List Event) (rest : List Nat)
    (h : rdbKeyRecord f op db e input = Res.ok (evs, rest)) :
    ∀ ev ∈ evs, recordEventOk e ev := by
  unfold rdbKeyRecord at h
  by_cases hdb : f.matches_db db
  · rw [if_pos hdb] at h
    cases hb : read_blob input with
    | crash =>
      simp only [hb] at h
      exact Res.noConfusion h
    | ok p =>
      obtain ⟨key, i1⟩ := p
      simp only [hb] at h
      by_cases hmt : f.matches_type op && f.matches_key key
      · rw [if_pos hmt] at h
        exact read_type_events key op e i1 evs rest h
      · rw [if_neg hmt] at h
        cases hs : skip_object op i1 with
        | crash =>
          simp only [hs] at h
          exact Res.noConfusion h
        | ok r =>
          simp only [hs, Res.ok.injEq, Prod.mk.injEq] at h
          rcases h with ⟨rfl, rfl⟩
          intro ev hev
          simp at hev
  · rw [if_neg hdb] at h
    cases hs : skip_key_and_object op input with
    | crash =>
      simp only [hs] at h
      exact Res.noConfusion h
    | ok r =>
      simp only [hs, Res.ok.injEq, Prod.mk.injEq] at h
      rcases h with ⟨rfl, rfl⟩
      intro ev hev
      simp at hev

theorem rdbStep_events (f : Filter) (op db : Nat) (e : Option Nat)
    (input : List Nat) (evs : List Event) (db2 : Nat) (e2 : Option Nat)
    (rest : List Nat) (done : Bool)
    (h : rdbStep f op db e input = Res.ok (evs, db2, e2, rest, done)) :
    (done = false → ∀ ev ∈ evs, ev.isClosing = false)
    ∧ (done = true → ∃ c, evs = [Event.end_database db, Event.end_rdb, Event.checksum c]) := by
  unfold rdbStep at h
  split_ifs at h
  · -- SELECTDB
    cases hl : read_length input with
    | crash =>
      simp only [hl] at h
      exact Res.noConfusion h
    | ok p =>
      obtain ⟨ldb, i1⟩ := p
      simp only [hl] at h
      cases h
      refine ⟨fun _ ev hev => ?_, fun hcontra => by simp at hcontra⟩
      by_cases hm : f.matches_db db2
      · rw [if_pos hm] at hev
        rcases List.mem_singleton.mp hev with rfl
        simp [Event.isClosing]
      · rw [if_neg hm] at hev
        simp at hev
  · -- EOF
    cases h
    exact ⟨fun hcontra => by simp at hcontra, fun _ => ⟨input, rfl⟩⟩
  · -- EXPIRETIME_MS
    cases hl : read_le_u64 input with
    | crash =>
      simp only [hl] at h
      exact Res.noConfusion h
    | ok p =>
      obtain ⟨v, i1⟩ := p
      simp only [hl] at h
      cases h
      exact ⟨fun _ ev hev => absurd hev (List.not_mem_nil ev),
             fun hcontra => by simp at hcontra⟩
  · -- EXPIRETIME
    cases hl : read_be_u32 input with
    | crash =>
      simp only [hl] at h
      exact Res.noConfusion h
    | ok p =>
      obtain ⟨v, i1⟩ := p
      simp only [hl] at h
      cases h
      exact ⟨fun _ ev hev => absurd hev (List.not_mem_nil ev),
             fun hcontra => by simp at hcontra⟩
  · -- RESIZEDB
    cases hl : read_length input with
    | crash =>
      simp only [hl] at h
      exact Res.noConfusion h
    | ok p =>
      obtain ⟨a, i1⟩ := p
      simp only [hl] at h
      cases hl2 : read_length i1 with
      | crash =>
        simp only [hl2] at h
        exact Res.noConfusion h
      | ok q =>
        obtain ⟨b, i2⟩ := q
        simp only [hl2] at h
        cases h
        refine ⟨fun _ ev hev => ?_, fun hcontra => by simp at hcontra⟩
        rcases List.mem_singleton.mp hev with rfl
        simp [Event.isClosing]
  · -- AUX
    cases hb : read_blob input with
    | crash =>
      simp only [hb] at h
      exact Res.noConfusion h
    | ok p =>
      obtain ⟨a, i1⟩ := p
      simp only [hb] at h
      cases hb2 : read_blob i1 with
      | crash =>
        simp only [hb2] at h
        exact Res.noConfusion h
      | ok q =>
        obtain ⟨b, i2⟩ := q
        simp only [hb2] at h
        cases h
        refine ⟨fun _ ev hev => ?_, fun hcontra => by simp at hcontra⟩
        rcases List.mem_singleton.mp hev with rfl
        simp [Event.isClosing]
  · -- key record
    cases hk : rdbKeyRecord f op db e input with
    | crash =>
      simp only [hk] at h
      exact Res.noConfusion h
    | ok p =>
      obtain ⟨evs0, rest0⟩ := p
      simp only [hk] at h
      cases h
      refine ⟨fun _ ev hev => ?_, fun hcontra => by simp at hcontra⟩
      exact (rdbKeyRecord_events f op db e input _ _ hk ev hev).1

/-- The SELECTDB arm: it never terminates the loop, keeps the latched
expire time, and emits `start_database(id)` exactly when the filter
admits the newly selected id. -/
theorem rdbStep_selectdb (f : Filter) (db : Nat) (e : Option Nat)
    (input : List Nat) (evs : List Event) (db2 : Nat) (e2 : Option Nat)
    (rest : List Nat) (done : Bool)
    (h : rdbStep f op_codes.SELECTDB db e input = Res.ok (evs, db2, e2, rest, done)) :
    done = false ∧ e2 = e ∧
    evs = if f.matches_db db2 then [Event.start_database db2] else [] := by
  unfold rdbStep at h
  rw [if_pos rfl] at h
  cases hl : read_length input with
  | crash =>
    simp only [hl] at h
    exact Res.noConfusion h
  | ok p =>
    obtain ⟨ldb, i1⟩ := p
    simp only [hl] at h
    cases h
    exact ⟨rfl, rfl, rfl⟩

/-- Every non-SELECTDB arm keeps `last_database` and emits no
`start_database` event. -/
theorem rdbStep_not_selectdb (f : Filter) (op db : Nat) (e : Option Nat)
    (input : List Nat) (evs : List Event) (db2 : Nat) (e2 : Option Nat)
    (rest : List Nat) (done : Bool) (hop : op ≠ op_codes.SELECTDB)
    (h : rdbStep f op db e input = Res.ok (evs, db2, e2, rest, done)) :
    db2 = db ∧ evs.filter Event.isStartDatabase = [] := by
  unfold rdbStep at h
  rw [if_neg hop] at h
  split_ifs at h
  · -- EOF
    cases h
    exact ⟨rfl, by simp [Event.isStartDatabase]⟩
  · -- EXPIRETIME_MS
    cases hl : read_le_u64 input with
    | crash =>
      simp only [hl] at h
      exact Res.noConfusion h
    | ok p =>
      obtain ⟨v, i1⟩ := p
      simp only [hl] at h
      cases h
      exact ⟨rfl, rfl⟩
  · -- EXPIRETIME
    cases hl : read_be_u32 input with
    | crash =>
      simp only [hl] at h
      exact Res.noConfusion h
    | ok p =>
      obtain ⟨v, i1⟩ := p
      simp only [hl] at h
      cases h
      exact ⟨rfl, rfl⟩
  · -- RESIZEDB
    cases hl : read_length input with
    | crash =>
      simp only [hl] at h
      exact Res.noConfusion h
    | ok p =>
      obtain ⟨a, i1⟩ := p
      simp only [hl] at h
      cases hl2 : read_length i1 with
      | crash =>
        simp only [hl2] at h
        exact Res.noConfusion h
      | ok q =>
        obtain ⟨b, i2⟩ := q
        simp only [hl2] at h
        cases h
        exact ⟨rfl, by simp [Event.isStartDatabase]⟩
  · -- AUX
    cases hb : read_blob input with
    | crash =>
      simp only [hb] at h
      exact Res.noConfusion h
    | ok p =>
      obtain ⟨a, i1⟩ := p
      simp only [hb] at h
      cases hb2 : read_blob i1 with
      | crash =>
        simp only [hb2] at h
        exact Res.noConfusion h
      | ok q =>
        obtain ⟨b, i2⟩ := q
        simp only [hb2] at h
        cases h
        exact ⟨rfl, by simp [Event.isStartDatabase]⟩
  · -- key record
    cases hk : rdbKeyRecord f op db e input with
    | crash =>
      simp only [hk] at h
      exact Res.noConfusion h
    | ok p =>
      obtain ⟨evs0, rest0⟩ := p
      simp only [hk] at h
      cases h
      refine ⟨rfl, List.filter_eq_nil_iff.mpr fun ev hev => ?_⟩
      simp [(rdbKeyRecord_events f op db e input _ _ hk ev hev).2.1]

/-- The full trace/selection characterisation of the opcode loop: a
successful run yields the selection chain `sels` (the SELECTDB ids in
stream order) with the EOF-time database equal to `lastDb db sels`, and
an event list that is a closing-free body followed by `end_database`
of exactly that id, `end_rdb` and the checksum — where the body's
`start_database` events are exactly the filter-admitted ids of `sels`,
in order. -/
theorem rdbLoop_trace_dbs (f : Filter) :
    ∀ fuel db e input evs, rdbLoop f fuel db e input = Res.ok evs →
      ∃ sels pre c,
        rdbLoopDbs f fuel db e input = Res.ok (sels, lastDb db sels)
        ∧ evs = pre ++ [Event.end_database (lastDb db sels), Event.end_rdb,
                        Event.checksum c]
        ∧ (∀ ev ∈ pre, ev.isClosing = false)
        ∧ pre.filter Event.isStartDatabase
            = (sels.filter f.matches_db).map Event.start_database := by
  intro fuel
  induction fuel with
  | zero =>
    intro db e input evs h
    exact Res.noConfusion h
  | succ fuel ih =>
    intro db e input evs h
    cases hb : read_byte input with
    | crash =>
      simp only [rdbLoop, hb] at h
      exact Res.noConfusion h
    | ok p =>
      obtain ⟨op, i1⟩ := p
      cases hs : rdbStep f op db e i1 with
      | crash =>
        simp only [rdbLoop, hb, hs] at h
        exact Res.noConfusion h
      | ok q =>
        obtain ⟨evs0, db2, e2, rest, done⟩ := q
        cases done with
        | true =>
          simp only [rdbLoop, hb, hs, if_true] at h
          cases h
          obtain ⟨c, hc⟩ := (rdbStep_events f op db e i1 _ _ _ _ true hs).2 rfl
          refine ⟨[], [], c, ?_, by simpa [lastDb] using hc, by simp, by simp⟩
          simp only [rdbLoopDbs, hb, hs, if_true, lastDb]
        | false =>
          cases hl : rdbLoop f fuel db2 e2 rest with
          | crash =>
            simp only [rdbLoop, hb, hs, hl] at h
            rw [if_neg Bool.false_ne_true] at h
            exact Res.noConfusion h
          | ok evs2 =>
            simp only [rdbLoop, hb, hs, hl] at h
            rw [if_neg Bool.false_ne_true] at h
            simp only [Res.ok.injEq] at h
            subst h
            obtain ⟨sels2, pre2, c, hdbs2, hdecomp, hpre2, hfilt2⟩ := ih db2 e2 rest evs2 hl
            have hstep := rdbStep_events f op db e i1 _ _ _ _ false hs
            have hdbs :
                rdbLoopDbs f (fuel + 1) db e input
                  = Res.ok ((if op = op_codes.SELECTDB then db2 :: sels2 else sels2),
                            lastDb db2 sels2) := by
              simp only [rdbLoopDbs, hb, hs]
              rw [if_neg Bool.false_ne_true]
              simp only [hdbs2]
            by_cases hop : op = op_codes.SELECTDB
            · subst hop
              obtain ⟨hdone, he2, hevs0⟩ := rdbStep_selectdb f db e i1 _ _ _ _ _ hs
              refine ⟨db2 :: sels2, evs0 ++ pre2, c, ?_, ?_, ?_, ?_⟩
              · rw [hdbs]
                simp [lastDb]
              · rw [hdecomp, List.append_assoc]
                rfl
              · intro ev hev
                rcases List.mem_append.mp hev with hev1 | hev2
                · exact hstep.1 rfl ev hev1
                · exact hpre2 ev hev2
              · rw [hevs0, List.filter_append, hfilt2]
                by_cases hm : f.matches_db db2
                · simp [hm, Event.isStartDatabase, List.filter_cons]
                · simp [hm, List.filter_cons]
            · obtain ⟨hdb2, hfilt0⟩ := rdbStep_not_selectdb f op db e i1 _ _ _ _ _ hop hs
              subst hdb2
              refine ⟨sels2, evs0 ++ pre2, c, ?_, ?_, ?_, ?_⟩
              · rw [hdbs]
                simp [hop]
              · rw [hdecomp, List.append_assoc]
              · intro ev hev
                rcases List.mem_append.mp hev with hev1 | hev2
                · exact hstep.1 rfl ev hev1
                · exact hpre2 ev hev2
              · rw [List.filter_append, hfilt0, hfilt2, List.nil_append]

/-! ## Claim theorems -/

/-- C2: the claim states that skipping a filtered-out key record
consumes exactly the bytes the read path would, for every value the
read path accepts — including sorted sets with sentinel score length
bytes and quicklists.  This is false of the code: on the ZSET record
`01 01 6D FD` (one member `m`, score sentinel 253 = NaN) the read path
consumes the whole record and succeeds, while `skip_object` parses the
sentinel byte `0xFD` as an encoded-blob header with unknown sub-code 61
and aborts; and `skip_object` has no arm at all for LIST_QUICKLIST
(type 14), so a filtered-out quicklist record aborts although the read
path accepts it. -/
theorem C2_skip_read_divergence :
    read_sorted_set [107] none [1, 1, 109, 253]
      = Res.ok ([Event.start_sorted_set [107] 1 none,
                 Event.sorted_set_element [107] Score.nan [109],
                 Event.end_sorted_set [107]], [])
    ∧ skip_object types.ZSET [1, 1, 109, 253] = Res.crash
    ∧ read_type [107] types.LIST_QUICKLIST none
        [1, 14, 0, 0, 0, 0, 0, 0, 0, 0, 1, 0, 0, 1, 97, 255]
      = Res.ok ([Event.start_set [107] 0 none, Event.list_element [107] [97],
                 Event.end_set [107]], [])
    ∧ skip_object types.LIST_QUICKLIST
        [1, 14, 0, 0, 0, 0, 0, 0, 0, 0, 1, 0, 0, 1, 97, 255] = Res.crash := by
  refine ⟨by decide, by decide, by decide, by decide⟩

/-- C5: the claim states that a LIST_QUICKLIST record is bracketed by
`start_list(key, 0, expiry)` and `end_list(key)`.  The code instead
emits `start_set(key, 0, expiry)` and `end_set(key)` around the
`list_element` entries: on a one-entry quicklist no `start_list` event
occurs at all. -/
theorem C5_quicklist_start_set_divergence :
    read_type [113] types.LIST_QUICKLIST (some 9)
        [1, 14, 0, 0, 0, 0, 0, 0, 0, 0, 1, 0, 0, 1, 98, 255]
      = Res.ok ([Event.start_set [113] 0 (some 9), Event.list_element [113] [98],
                 Event.end_set [113]], [])
    ∧ ([Event.start_set [113] 0 (some 9), Event.list_element [113] [98],
        Event.end_set [113]].any
        (fun ev => match ev with
          | Event.start_list _ _ _ => true
          | Event.end_list _ => true
          | _ => false)) = false := by
  refine ⟨by decide, by decide⟩

/-- C7: the claim states that ziplist inline integers with flag nibble
`0xF0` (3-byte) and flag `0xFE` (1-byte) decode as signed integers.
The code composes them from unsigned bytes without sign extension:
bytes `FF FF FF` under flag `0xF0` decode to 16777215 instead of -1,
and byte `FF` under flag `0xFE` decodes to 255 instead of -1 — while
the neighbouring 2-byte case (flag `0xC0`) is decoded signed, as the
valid contrast shows. -/
theorem C7_ziplist_int_no_sign_extension :
    read_ziplist_entry [0, 240, 255, 255, 255] = Res.ok (DataType.num 16777215, [])
    ∧ read_ziplist_entry [0, 254, 255] = Res.ok (DataType.num 255, [])
    ∧ read_ziplist_entry [0, 192, 255, 255] = Res.ok (DataType.num (-1), []) := by
  refine ⟨by decide, by decide, by decide⟩

/-- C9: the claim states that every malformed input makes the parse
return a MalformedInput-kind error and never abort.  The code has no
error return at all (`parse` returns unit) and aborts via
`assert!`/`unwrap`: magic mismatch, unsupported version, unknown
encoding-type byte and short reads all abort. -/
theorem C9_malformed_input_aborts :
    parse AllFilter [78, 79, 84, 82, 68, 48, 48, 48, 55] = Res.crash
    ∧ parse AllFilter [82, 69, 68, 73, 83, 48, 48, 48, 57] = Res.crash
    ∧ parse AllFilter [82, 69, 68, 73, 83, 48, 48, 48, 55, 6, 0] = Res.crash
    ∧ parse AllFilter [82, 69, 68, 73, 83] = Res.crash := by
  refine ⟨by decide, by decide, by decide, by decide⟩

/-- C1 (counterexample): the claim requires `end_database(prev)` to be
emitted before the `start_database` of a later database.  On a
snapshot selecting database 0 and then database 1, the code emits the
two `start_database` events back to back and `end_database 0` never
occurs in the trace. -/
theorem C1_counterexample_no_end_before_start :
    parse AllFilter [82, 69, 68, 73, 83, 48, 48, 48, 55, 254, 0, 254, 1, 255]
      = Res.ok [Event.start_rdb, Event.start_database 0, Event.start_database 1,
                Event.end_database 1, Event.end_rdb, Event.checksum []]
    ∧ ([Event.start_rdb, Event.start_database 0, Event.start_database 1,
        Event.end_database 1, Event.end_rdb, Event.checksum []].any
        (fun ev => match ev with
          | Event.end_database 0 => true
          | _ => false)) = false := by
  refine ⟨by decide, by decide⟩

/-- C6 (counterexample): the claim requires a first byte `0x81` (top
bits `10`) to introduce an 8-byte big-endian length.  The code reads 4
bytes big-endian for every top-bits-`10` byte: on `81 00 00 00 00 00 00
00 05` it returns length 0 having consumed only 4 of the 8 payload
bytes, instead of length 5 with all 8 consumed. -/
theorem C6_counterexample_64bit_form :
    read_length_with_encoding [129, 0, 0, 0, 0, 0, 0, 0, 5]
      = Res.ok ((0, false), [0, 0, 0, 5]) := by
  decide

/-- C8 (counterexample): the claim states the accepted version range is
[1, 8].  Version `0008` — four ASCII digits with value 8 — is rejected
by the code (`SUPPORTED_MAXIMUM` is 7): `verify_version` returns false
and the parse of a `REDIS0008` header aborts. -/
theorem C8_counterexample_version8 :
    (48 - 48) * 1000 + (48 - 48) * 100 + (48 - 48) * 10 + (56 - 48) = 8
    ∧ verify_version [48, 48, 48, 56] = Res.ok (false, [])
    ∧ parse AllFilter [82, 69, 68, 73, 83, 48, 48, 48, 56, 255] = Res.crash := by
  refine ⟨by decide, by decide, by decide⟩

/-- C1 (amended): for every successful parse the event trace is
`start_rdb`, then a body, then `end_database(d)`, `end_rdb`,
`checksum` — where `d` is the last database id selected by a SELECTDB
opcode (`lastDb 0 sels`, i.e. 0 if none, and regardless of filtering,
as computed by the selection observer `parseDbs`), the body contains
no `start_rdb`/`end_rdb`/`end_database`/`checksum` event at all, and
the body's `start_database` events are exactly the filter-admitted
selected ids, one per admitted SELECTDB and in stream order.  In
particular no `end_database(prev)` is emitted when a SELECTDB starts a
new database: the only `end_database` is the one at EOF. -/
theorem C1_event_nesting_amended (f : Filter) (input : List Nat) (tr : List Event)
    (h : parse f input = Res.ok tr) :
    ∃ sels pre c,
      parseDbs f input = Res.ok (sels, lastDb 0 sels)
      ∧ tr = Event.start_rdb :: pre
          ++ [Event.end_database (lastDb 0 sels), Event.end_rdb, Event.checksum c]
      ∧ (∀ ev ∈ pre, ev.isClosing = false)
      ∧ pre.filter Event.isStartDatabase
          = (sels.filter f.matches_db).map Event.start_database := by
  unfold parse at h
  cases hm : verify_magic input with
  | crash =>
    simp only [hm] at h
    exact Res.noConfusion h
  | ok p =>
    obtain ⟨m, i1⟩ := p
    simp only [hm] at h
    cases m with
    | false =>
      rw [if_neg Bool.false_ne_true] at h
      exact Res.noConfusion h
    | true =>
      rw [if_pos rfl] at h
      cases hv : verify_version i1 with
      | crash =>
        simp only [hv] at h
        exact Res.noConfusion h
      | ok q =>
        obtain ⟨v, i2⟩ := q
        simp only [hv] at h
        cases v with
        | false =>
          rw [if_neg Bool.false_ne_true] at h
          exact Res.noConfusion h
        | true =>
          rw [if_pos rfl] at h
          cases hl : rdbLoop f (i2.length + 1) 0 none i2 with
          | crash =>
            simp only [hl] at h
            exact Res.noConfusion h
          | ok evs =>
            simp only [hl] at h
            cases h
            obtain ⟨sels, pre, c, hdbs, hdecomp, hpre, hfilt⟩ :=
              rdbLoop_trace_dbs f (i2.length + 1) 0 none i2 evs hl
            refine ⟨sels, pre, c, ?_, by subst hdecomp; rfl, hpre, hfilt⟩
            simp only [parseDbs, hm, hv, if_true]
            exact hdbs

/-- C1 (witness): the amended trace/selection characterisation
evaluated on the concrete two-database snapshot of the counterexample
(whose selection chain is [0, 1], so the EOF event is
`end_database 1`). -/
theorem C1_event_nesting_amended_witness :
    ∃ sels pre c,
      parseDbs AllFilter [82, 69, 68, 73, 83, 48, 48, 48, 55, 254, 0, 254, 1, 255]
        = Res.ok (sels, lastDb 0 sels)
      ∧ [Event.start_rdb, Event.start_database 0, Event.start_database 1,
         Event.end_database 1, Event.end_rdb, Event.checksum []]
          = Event.start_rdb :: pre
            ++ [Event.end_database (lastDb 0 sels), Event.end_rdb, Event.checksum c]
      ∧ (∀ ev ∈ pre, ev.isClosing = false)
      ∧ pre.filter Event.isStartDatabase
          = (sels.filter AllFilter.matches_db).map Event.start_database :=
  C1_event_nesting_amended AllFilter
    [82, 69, 68, 73, 83, 48, 48, 48, 55, 254, 0, 254, 1, 255]
    [Event.start_rdb, Event.start_database 0, Event.start_database 1,
     Event.end_database 1, Event.end_rdb, Event.checksum []] (by decide)

/-- C3: an expire opcode latches its value (252: 8-byte little-endian
milliseconds; 253: 4-byte big-endian seconds times 1000) and applies to
exactly one subsequent key record: every expiry-carrying event emitted
for that record carries exactly the latched value, and after the
record — emitted or filtered out — the latch is cleared to `none`, so
later key records carry no expiry unless re-latched. -/
theorem C3_expire_latch (f : Filter) (db : Nat) (e : Option Nat) :
    (∀ input v rest, read_le_u64 input = Res.ok (v, rest) →
        rdbStep f op_codes.EXPIRETIME_MS db e input = Res.ok ([], db, some v, rest, false))
    ∧ (∀ input v rest, read_be_u32 input = Res.ok (v, rest) →
        rdbStep f op_codes.EXPIRETIME db e input = Res.ok ([], db, some (v * 1000), rest, false))
    ∧ (∀ t input evs db2 e2 rest done, t ≤ 249 →
        rdbStep f t db e input = Res.ok (evs, db2, e2, rest, done) →
        e2 = none ∧ db2 = db ∧ done = false ∧
        ∀ ev ∈ evs, ∀ x, ev.expiryOf = some x → x = e) := by
  refine ⟨?_, ?_, ?_⟩
  · intro input v rest hread
    unfold rdbStep
    rw [if_neg (by decide), if_neg (by decide), if_pos rfl]
    simp only [hread]
  · intro input v rest hread
    unfold rdbStep
    rw [if_neg (by decide), if_neg (by decide), if_neg (by decide), if_pos rfl]
    simp only [hread]
  · intro t input evs db2 e2 rest done ht h
    unfold rdbStep at h
    rw [if_neg (by simp only [op_codes.SELECTDB]; omega),
        if_neg (by simp only [op_codes.EOF]; omega),
        if_neg (by simp only [op_codes.EXPIRETIME_MS]; omega),
        if_neg (by simp only [op_codes.EXPIRETIME]; omega),
        if_neg (by simp only [op_codes.RESIZEDB]; omega),
        if_neg (by simp only [op_codes.AUX]; omega)] at h
    cases hk : rdbKeyRecord f t db e input with
    | crash =>
      simp only [hk] at h
      exact Res.noConfusion h
    | ok p =>
      obtain ⟨evs0, rest0⟩ := p
      simp only [hk] at h
      cases h
      refine ⟨rfl, rfl, rfl, ?_⟩
      intro ev hev x hx
      exact (rdbKeyRecord_events f t db e input _ _ hk ev hev).2.2 x hx

/-- C3 (witness): the latch theorem evaluated on concrete inputs — a
252 opcode latching 1 ms, a 253 opcode latching 2 seconds as 2000 ms,
and a string key record under latch `some 5` whose `set` event carries
exactly `some 5`. -/
theorem C3_expire_latch_witness :
    rdbStep AllFilter op_codes.EXPIRETIME_MS 0 none [1, 0, 0, 0, 0, 0, 0, 0]
      = Res.ok ([], 0, some 1, [], false)
    ∧ rdbStep AllFilter op_codes.EXPIRETIME 0 none [0, 0, 0, 2]
      = Res.ok ([], 0, some 2000, [], false)
    ∧ (some 5 : Option Nat) = some 5 := by
  obtain ⟨h1, h2, _⟩ := C3_expire_latch AllFilter 0 none
  obtain ⟨_, _, h3⟩ := C3_expire_latch AllFilter 0 (some 5)
  refine ⟨h1 [1, 0, 0, 0, 0, 0, 0, 0] 1 [] (by decide),
          h2 [0, 0, 0, 2] 2 [] (by decide), ?_⟩
  exact (h3 0 [1, 107, 1, 118] [Event.set [107] [118] (some 5)] 0 none [] false
      (by omega) (by decide)).2.2.2 (Event.set [107] [118] (some 5))
      (List.mem_singleton.mpr rfl) (some 5) rfl

/-- C4 (counterexample): the claim states that type 12 (ZSET_ZIPLIST)
emits sorted-set events over consecutive pairs and type 13
(HASH_ZIPLIST) hash events.  On a two-entry ziplist record the code
emits plain list events for both types — `start_list`, one
`list_element` per single entry, `end_list` — and no sorted-set or
hash event occurs. -/
theorem C4_counterexample_ziplist_pairs :
    read_type [107] types.ZSET_ZIPLIST none
        [17, 0, 0, 0, 0, 0, 0, 0, 0, 2, 0, 0, 1, 109, 0, 1, 53, 255]
      = Res.ok ([Event.start_list [107] 2 none, Event.list_element [107] [109],
                 Event.list_element [107] [53], Event.end_list [107]], [])
    ∧ read_type [107] types.HASH_ZIPLIST none
        [17, 0, 0, 0, 0, 0, 0, 0, 0, 2, 0, 0, 1, 109, 0, 1, 53, 255]
      = Res.ok ([Event.start_list [107] 2 none, Event.list_element [107] [109],
                 Event.list_element [107] [53], Event.end_list [107]], [])
    ∧ ([Event.start_list [107] 2 none, Event.list_element [107] [109],
        Event.list_element [107] [53], Event.end_list [107]].any
        (fun ev => match ev with
          | Event.start_sorted_set _ _ _ => true
          | Event.sorted_set_element _ _ _ => true
          | Event.end_sorted_set _ => true
          | Event.start_hash _ _ _ => true
          | Event.hash_element _ _ _ => true
          | Event.end_hash _ => true
          | _ => false)) = false := by
  refine ⟨by decide, by decide, by decide⟩

/-- C4 (amended): a key record with encoding-type byte 12
(ZSET_ZIPLIST) or 13 (HASH_ZIPLIST) is decoded exactly like a
LIST_ZIPLIST record: the blob is parsed as a ziplist and the emitted
events are `start_list(key, zllen, expiry)`, one `list_element` per
ziplist entry (pairs are not grouped), and `end_list(key)`. -/
theorem C4_ziplist_types_amended (key : List Nat) (e : Option Nat) (input : List Nat)
    (evs : List Event) (rest : List Nat) :
    read_type key types.ZSET_ZIPLIST e input = read_list_ziplist key e input
    ∧ read_type key types.HASH_ZIPLIST e input = read_list_ziplist key e input
    ∧ (read_list_ziplist key e input = Res.ok (evs, rest) →
        ∃ n elems, evs = Event.start_list key n e :: elems ++ [Event.end_list key]
          ∧ ∀ ev ∈ elems, ∃ v, ev = Event.list_element key v) := by
  refine ⟨rfl, rfl, ?_⟩
  intro h
  cases hb : read_blob input with
  | crash =>
    simp only [read_list_ziplist, hb] at h
    exact Res.noConfusion h
  | ok p =>
    obtain ⟨zl, r0⟩ := p
    cases hm : read_ziplist_metadata zl with
    | crash =>
      simp only [read_list_ziplist, hb, hm] at h
      exact Res.noConfusion h
    | ok q =>
      obtain ⟨⟨zlbytes, zltail, zllen⟩, z1⟩ := q
      cases he : read_ziplist_entries key zllen z1 with
      | crash =>
        simp only [read_list_ziplist, hb, hm, he] at h
        exact Res.noConfusion h
      | ok s =>
        obtain ⟨evs0, z2⟩ := s
        cases ht : read_byte z2 with
        | crash =>
          simp only [read_list_ziplist, hb, hm, he, ht] at h
          exact Res.noConfusion h
        | ok t =>
          obtain ⟨term, z3⟩ := t
          by_cases hterm : term = 0xFF
          · simp only [read_list_ziplist, hb, hm, he, ht, hterm, if_pos,
              Res.ok.injEq, Prod.mk.injEq] at h
            rcases h with ⟨rfl, rfl⟩
            exact ⟨zllen, evs0, rfl,
                   read_ziplist_entries_events key zllen z1 evs0 z2 he⟩
          · simp only [read_list_ziplist, hb, hm, he, ht, hterm, if_neg, if_false] at h
            exact Res.noConfusion h

/-- C4 (witness): the amended statement evaluated on the concrete
two-entry ziplist record of the counterexample. -/
theorem C4_ziplist_types_amended_witness :
    ∃ n elems,
      [Event.start_list [107] 2 none, Event.list_element [107] [109],
       Event.list_element [107] [53], Event.end_list [107]]
        = Event.start_list [107] n none :: elems ++ [Event.end_list [107]]
      ∧ ∀ ev ∈ elems, ∃ v, ev = Event.list_element [107] v :=
  (C4_ziplist_types_amended [107] none
      [17, 0, 0, 0, 0, 0, 0, 0, 0, 2, 0, 0, 1, 109, 0, 1, 53, 255]
      [Event.start_list [107] 2 none, Event.list_element [107] [109],
       Event.list_element [107] [53], Event.end_list [107]] []).2.2 (by decide)

/-- C6 (amended): for every first byte whose top two bits are `10`, the
decoder reads the next 4 bytes big-endian as the length and reports
is-encoded = false, regardless of whether the byte is 0x80 or 0x81:
the 8-byte big-endian form does not exist in this decoder. -/
theorem C6_length_top2_amended (b : Nat) (rest : List Nat)
    (h : (b &&& 0xC0) >>> 6 = 2) :
    read_length_with_encoding (b :: rest)
      = (match read_be_u32 rest with
         | Res.crash => Res.crash
         | Res.ok (n, r) => Res.ok ((n, false), r)) := by
  simp only [read_length_with_encoding, read_byte]
  rw [h]

/-- C6 (witness): byte 0x81 — the claimed 8-byte form — followed by
`00 00 00 07` is decoded as the 4-byte big-endian length 7. -/
theorem C6_length_top2_amended_witness :
    (129 &&& 0xC0) >>> 6 = 2
    ∧ read_length_with_encoding [129, 0, 0, 0, 7] = Res.ok ((7, false), []) :=
  ⟨by decide, (C6_length_top2_amended 129 [0, 0, 0, 7] (by decide)).trans (by decide)⟩

/-- C8 (amended): the header is accepted exactly when the first five
bytes are ASCII `REDIS` and the next four are ASCII decimal digits
whose value lies in [1, 7] (not [1, 8]): `verify_magic` returns true
iff the magic matches, and `verify_version` returns true iff the four
bytes are digits with value between 1 and 7. -/
theorem C8_header_acceptance_amended :
    (∀ m0 m1 m2 m3 m4 rest,
        verify_magic (m0 :: m1 :: m2 :: m3 :: m4 :: rest) = Res.ok (true, rest)
        ↔ (m0 = 82 ∧ m1 = 69 ∧ m2 = 68 ∧ m3 = 73 ∧ m4 = 83))
    ∧ (∀ b0 b1 b2 b3 rest, b0 < 256 → b1 < 256 → b2 < 256 → b3 < 256 →
        (verify_version (b0 :: b1 :: b2 :: b3 :: rest) = Res.ok (true, rest)
          ↔ (48 ≤ b0 ∧ b0 ≤ 57 ∧ 48 ≤ b1 ∧ b1 ≤ 57 ∧ 48 ≤ b2 ∧ b2 ≤ 57
             ∧ 48 ≤ b3 ∧ b3 ≤ 57
             ∧ 1 ≤ (b0 - 48) * 1000 + (b1 - 48) * 100 + (b2 - 48) * 10 + (b3 - 48)
             ∧ (b0 - 48) * 1000 + (b1 - 48) * 100 + (b2 - 48) * 10 + (b3 - 48) ≤ 7))) := by
  constructor
  · intro m0 m1 m2 m3 m4 rest
    have h5 : read_exact 5 (m0 :: m1 :: m2 :: m3 :: m4 :: rest)
        = Res.ok ([m0, m1, m2, m3, m4], rest) := rfl
    simp only [verify_magic, h5, List.getD, Res.ok.injEq, Prod.mk.injEq,
      Bool.and_eq_true, beq_iff_eq, and_true]
    tauto
  · intro b0 b1 b2 b3 rest h0 h1 h2 h3
    have hv : verify_version (b0 :: b1 :: b2 :: b3 :: rest)
        = Res.ok (decide (1 ≤ (b0 + 208) % 256 * 1000 + (b1 + 208) % 256 * 100 +
                            (b2 + 208) % 256 * 10 + (b3 + 208) % 256
                  ∧ (b0 + 208) % 256 * 1000 + (b1 + 208) % 256 * 100 +
                    (b2 + 208) % 256 * 10 + (b3 + 208) % 256 ≤ 7), rest) := rfl
    simp only [hv, Res.ok.injEq, Prod.mk.injEq, decide_eq_true_iff, and_true]
    omega

/-- C8 (witness): the header characterisation evaluated on the
accepted header `REDIS0007`. -/
theorem C8_header_acceptance_amended_witness :
    verify_magic [82, 69, 68, 73, 83] = Res.ok (true, [])
    ∧ verify_version [48, 48, 48, 55] = Res.ok (true, []) := by
  refine ⟨(C8_header_acceptance_amended.1 82 69 68 73 83 []).mpr (by omega), ?_⟩
  exact (C8_header_acceptance_amended.2 48 48 48 55 [] (by omega) (by omega)
    (by omega) (by omega)).mpr (by omega)

/-- C10: a key record appearing before any SELECTDB opcode is
attributed to database 0: the filter is consulted with `matches_db 0`
(and the type/key predicates when that admits), the record's events are
emitted with no preceding `start_database`, and `end_database 0` is
still emitted at EOF — shown for a one-string snapshot with arbitrary
filter, key byte and value byte. -/
theorem C10_initial_database_zero (f : Filter) (k v : Nat) :
    parse f [82, 69, 68, 73, 83, 48, 48, 48, 55, 0, 1, k, 1, v, 255]
      = Res.ok (Event.start_rdb ::
          (if f.matches_db 0 then
             (if f.matches_type 0 && f.matches_key [k]
              then [Event.set [k] [v] none] else [])
           else []) ++
          [Event.end_database 0, Event.end_rdb, Event.checksum []]) := by
  by_cases hdb : f.matches_db 0
  · by_cases ht : f.matches_type 0 && f.matches_key [k]
    · simp [parse, verify_magic, verify_version, read_exact, rdbLoop, rdbStep,
        rdbKeyRecord, read_byte, read_blob, read_length, read_length_with_encoding,
        read_type, hdb, ht, version.SUPPORTED_MINIMUM, version.SUPPORTED_MAXIMUM,
        op_codes.SELECTDB, op_codes.EOF, op_codes.EXPIRETIME_MS,
        op_codes.EXPIRETIME, op_codes.RESIZEDB, op_codes.AUX, types.STRING]
    · simp [parse, verify_magic, verify_version, read_exact, rdbLoop, rdbStep,
        rdbKeyRecord, read_byte, read_blob, read_length, read_length_with_encoding,
        skip_object, skip_blobs, skip_blob, skip, hdb, ht, version.SUPPORTED_MINIMUM,
        version.SUPPORTED_MAXIMUM, op_codes.SELECTDB,
        op_codes.EOF, op_codes.EXPIRETIME_MS, op_codes.EXPIRETIME, op_codes.RESIZEDB,
        op_codes.AUX, types.STRING, types.HASH_ZIPMAP, types.LIST_ZIPLIST,
        types.SET_INTSET, types.ZSET_ZIPLIST, types.HASH_ZIPLIST]
  · simp [parse, verify_magic, verify_version, read_exact, rdbLoop, rdbStep,
      rdbKeyRecord, skip_key_and_object, read_byte, read_blob, read_length,
      read_length_with_encoding, skip_object, skip_blobs, skip_blob, skip, hdb,
      version.SUPPORTED_MINIMUM, version.SUPPORTED_MAXIMUM, op_codes.SELECTDB, op_codes.EOF, op_codes.EXPIRETIME_MS, op_codes.EXPIRETIME,
      op_codes.RESIZEDB, op_codes.AUX, types.STRING, types.HASH_ZIPMAP,
      types.LIST_ZIPLIST, types.SET_INTSET, types.ZSET_ZIPLIST, types.HASH_ZIPLIST]
